import Mathlib

/-!
Verification of the friendship state machine and notification logic of the
`editvoid` chat backend (`src/server/backend.py`).

The MongoDB collections (`accounts`, `messages`, `friends`, `settings`,
`notifications`) are embedded as Lean lists of documents kept in insertion
order.  `find_one` becomes `find_first` (first matching document),
`update_one` becomes `update_one` (rewrite the first matching document,
no-op when none matches), `insert_one` appends, `$addToSet` is `addToSet`,
`$pull` is `pull`, and `delete_many`/query filters are `filterp`.
MongoDB ObjectIds are modelled by a per-state counter `nextId`, and
`datetime.now()` by a logical clock `clock`, both bumped on every insert.
The case-insensitive username regex `^u$` with option `i` is modelled as
equality of `String.pylower` images; Python `str.strip` is `String.pystrip`.
-/

/-- First element of a list satisfying a decidable predicate; this is the
shallow embedding of `collection.find_one(query)`. -/
def find_first {α : Type} (p : α → Prop) [DecidablePred p] : List α → Option α
  | [] => none
  | a :: l => if p a then some a else find_first p l

/-- Keep the elements satisfying a decidable predicate, in order. -/
def filterp {α : Type} (p : α → Prop) [DecidablePred p] : List α → List α
  | [] => []
  | a :: l => if p a then a :: filterp p l else filterp p l

/-- MongoDB `$addToSet`: append the element unless it is already present. -/
def addToSet (l : List String) (x : String) : List String :=
  if x ∈ l then l else l ++ [x]

/-- MongoDB `$pull`: remove every occurrence of the element. -/
def pull (l : List String) (x : String) : List String :=
  filterp (fun y => y ≠ x) l

/-- Last `n` elements of a list, in order. -/
def takeLast {α : Type} (n : Nat) (l : List α) : List α :=
  l.drop (l.length - n)

section ListLemmas

variable {α : Type} {p : α → Prop} [DecidablePred p]

theorem find_first_append (l₁ l₂ : List α) :
    find_first p (l₁ ++ l₂) =
      match find_first p l₁ with
      | some a => some a
      | none => find_first p l₂ := by
  induction l₁ with
  | nil => simp [find_first]
  | cons a l ih =>
    by_cases h : p a <;> simp [find_first, h, ih]

theorem find_first_mem {l : List α} {a : α} (h : find_first p l = some a) :
    a ∈ l ∧ p a := by
  induction l with
  | nil => simp [find_first] at h
  | cons b l ih =>
    by_cases hb : p b
    · simp [find_first, hb] at h
      subst h; exact ⟨List.mem_cons_self _ _, hb⟩
    · simp [find_first, hb] at h
      rcases ih h with ⟨h1, h2⟩
      exact ⟨List.mem_cons_of_mem _ h1, h2⟩

theorem find_first_isSome_of_mem {l : List α} {a : α} (ha : a ∈ l) (hpa : p a) :
    (find_first p l).isSome := by
  induction l with
  | nil => simp at ha
  | cons b l ih =>
    by_cases hb : p b
    · simp [find_first, hb]
    · rcases List.mem_cons.mp ha with rfl | ha'
      · exact absurd hpa hb
      · simpa [find_first, hb] using ih ha'

theorem find_first_eq_none {l : List α} :
    find_first p l = none ↔ ∀ a ∈ l, ¬ p a := by
  induction l with
  | nil => simp [find_first]
  | cons b l ih =>
    by_cases hb : p b
    · simp only [find_first, if_pos hb]
      constructor
      · intro h; exact absurd h (by simp)
      · intro h; exact absurd hb (h b (List.mem_cons_self _ _))
    · simp [find_first, hb, ih]

theorem mem_filterp {l : List α} {x : α} :
    x ∈ filterp p l ↔ x ∈ l ∧ p x := by
  induction l with
  | nil => simp [filterp]
  | cons a l ih =>
    by_cases h : p a
    · simp only [filterp, if_pos h, List.mem_cons, ih]
      constructor
      · rintro (rfl | ⟨h1, h2⟩)
        · exact ⟨Or.inl rfl, h⟩
        · exact ⟨Or.inr h1, h2⟩
      · rintro ⟨rfl | h1, h2⟩
        · exact Or.inl rfl
        · exact Or.inr ⟨h1, h2⟩
    · simp only [filterp, if_neg h, List.mem_cons, ih]
      constructor
      · rintro ⟨h1, h2⟩; exact ⟨Or.inr h1, h2⟩
      · rintro ⟨rfl | h1, h2⟩
        · exact absurd h2 h
        · exact ⟨h1, h2⟩

theorem filterp_append (l₁ l₂ : List α) :
    filterp p (l₁ ++ l₂) = filterp p l₁ ++ filterp p l₂ := by
  induction l₁ with
  | nil => simp [filterp]
  | cons a l ih => by_cases h : p a <;> simp [filterp, h, ih]

theorem filterp_sublist (l : List α) : (filterp p l).Sublist l := by
  induction l with
  | nil => simp [filterp]
  | cons a l ih =>
    by_cases h : p a
    · simpa [filterp, h] using ih.cons₂ a
    · simpa [filterp, h] using ih.cons a

theorem filterp_eq_self {l : List α} (h : ∀ a ∈ l, p a) : filterp p l = l := by
  induction l with
  | nil => rfl
  | cons a l ih =>
    rw [filterp, if_pos (h a (List.mem_cons_self _ _)),
      ih (fun b hb => h b (List.mem_cons_of_mem _ hb))]

theorem filterp_eq_nil {l : List α} (h : ∀ a ∈ l, ¬ p a) : filterp p l = [] := by
  induction l with
  | nil => rfl
  | cons a l ih =>
    rw [filterp, if_neg (h a (List.mem_cons_self _ _))]
    exact ih (fun b hb => h b (List.mem_cons_of_mem _ hb))

theorem filterp_filterp {q : α → Prop} [DecidablePred q] (l : List α) :
    filterp p (filterp q l) = filterp (fun a => q a ∧ p a) l := by
  induction l with
  | nil => rfl
  | cons a l ih =>
    by_cases hq : q a <;> by_cases hp : p a <;>
      simp [filterp, hq, hp, ih]

end ListLemmas

theorem mem_addToSet {l : List String} {x a : String} :
    a ∈ addToSet l x ↔ a ∈ l ∨ a = x := by
  unfold addToSet
  split
  · rename_i h
    constructor
    · exact Or.inl
    · rintro (h1 | rfl)
      · exact h1
      · exact h
  · simp [List.mem_append]

theorem mem_pull {l : List String} {x a : String} :
    a ∈ pull l x ↔ a ∈ l ∧ a ≠ x := mem_filterp

theorem length_takeLast {α : Type} (n : Nat) (l : List α) :
    (takeLast n l).length ≤ n := by
  simp only [takeLast, List.length_drop]
  omega

theorem takeLast_eq_self {α : Type} {n : Nat} {l : List α} (h : l.length ≤ n) :
    takeLast n l = l := by
  simp [takeLast, Nat.sub_eq_zero_of_le h]

/-- Python `str.lower`, the semantics of the case-insensitive regex
match `^u$` with option `i`: lower-case every character.  Stated by
structural recursion over the character list so that concrete instances
evaluate inside proofs. -/
def String.pylower (s : String) : String :=
  String.mk (s.data.map Char.toLower)

/-- Python `str.strip`: drop leading and trailing whitespace.  This is
`String.trim` restated by structural recursion over the character list,
so that concrete instances evaluate inside proofs. -/
def String.pystrip (s : String) : String :=
  String.mk (((s.data.dropWhile Char.isWhitespace).reverse.dropWhile
    Char.isWhitespace).reverse)

/-! ## Document types (one structure per MongoDB collection) -/

/-- A document of the `accounts` collection, as created by `register`. -/
structure Account where
  username : String
  password : String
  created_at : Nat
  profile_picture : String
  status : String
  last_seen : Nat
deriving Repr, DecidableEq

/-- A document of the `friends` collection: the friends list and the two
pending-request lists of one user. -/
structure FriendDoc where
  username : String
  friends : List String
  pending_sent : List String
  pending_received : List String
deriving Repr, DecidableEq

/-- A document of the `settings` collection.  The Boolean flags are stored
as `Option Bool` because the Python code reads them with
`doc.get(key, True)`, defaulting to `True` when the key is missing. -/
structure SettingsDoc where
  username : String
  theme : String
  failsafe_key : String
  failsafe_url : String
  notifications : Option Bool
  message_notifications : Option Bool
  friend_request_notifications : Option Bool
  sound_notifications : Option Bool
deriving Repr, DecidableEq

/-- A document of the `notifications` collection (`ntype` is the Python
field `type`; `id` models the Mongo ObjectId `_id`). -/
structure Notification where
  id : Nat
  username : String
  ntype : String
  title : String
  message : String
  data : List (String × String)
  read : Bool
  created_at : Nat
deriving Repr, DecidableEq

/-- A document of the `messages` collection (`id` models `_id`, whose
ascending order is insertion order). -/
structure Message where
  id : Nat
  username : String
  message : String
  timestamp : Nat
  channel : String
  profile_picture : String
deriving Repr, DecidableEq

/-- Observable socket.io emissions (only the two kinds the verified
handlers produce). -/
inductive SEvent where
  | new_message (channel : String) (msg : Message)
  | new_notification (username : String) (n : Notification)
deriving Repr, DecidableEq

/-- The whole server state: the five collections, the `active_users` map
(reduced to its key set, the connected usernames), the trace of socket
emissions, the logical clock and the ObjectId counter. -/
structure State where
  accounts : List Account
  messages : List Message
  friendsCol : List FriendDoc
  settingsCol : List SettingsDoc
  notifsCol : List Notification
  activeUsers : List String
  events : List SEvent
  clock : Nat
  nextId : Nat
deriving Repr, DecidableEq

/-- The state of a freshly started server over an empty database. -/
def emptyState : State :=
  { accounts := [], messages := [], friendsCol := [], settingsCol := [],
    notifsCol := [], activeUsers := [], events := [], clock := 0, nextId := 0 }

/-- Modelled from the spec: `hash_password` wraps `hashlib.sha256`, a
primitive the spec excludes as an external collaborator ("password hashing
(a one-line primitive)"); it is abstracted as an injective tagging
function, since no claim depends on the digest value itself. -/
def hash_password (password : String) : String :=
  "sha256:" ++ password

/-! ## Operations on the `friends` collection -/

/-- The find_one lookup by exact username on the friends collection. -/
def findDoc (l : List FriendDoc) (u : String) : Option FriendDoc :=
  find_first (fun d => d.username = u) l

/-- The fresh friends document inserted for a user with no document yet. -/
def emptyFriendDoc (u : String) : FriendDoc :=
  { username := u, friends := [], pending_sent := [], pending_received := [] }

/-- The document `find_one` returns, or the fresh dict the Python code
builds when there is none. -/
def docOr (l : List FriendDoc) (u : String) : FriendDoc :=
  (findDoc l u).getD (emptyFriendDoc u)

/-- Insert a fresh friends document unless one already exists (the
find-then-insert pattern of `send_friend_request` and `get_friends`). -/
def ensureDoc (l : List FriendDoc) (u : String) : List FriendDoc :=
  match findDoc l u with
  | some _ => l
  | none => l ++ [emptyFriendDoc u]

/-- The update_one call keyed by username: rewrite the first document
whose username is `u`; no-op when none matches. -/
def update_one (l : List FriendDoc) (u : String) (f : FriendDoc → FriendDoc) :
    List FriendDoc :=
  match l with
  | [] => []
  | d :: rest =>
    if d.username = u then f d :: rest else d :: update_one rest u f

/-- The addToSet update on the pending_sent list. -/
def addPS (other : String) (d : FriendDoc) : FriendDoc :=
  { d with pending_sent := addToSet d.pending_sent other }

/-- The addToSet update on the pending_received list. -/
def addPR (other : String) (d : FriendDoc) : FriendDoc :=
  { d with pending_received := addToSet d.pending_received other }

/-- The pull update on the pending_sent list. -/
def pullPS (other : String) (d : FriendDoc) : FriendDoc :=
  { d with pending_sent := pull d.pending_sent other }

/-- The pull update on the pending_received list. -/
def pullPR (other : String) (d : FriendDoc) : FriendDoc :=
  { d with pending_received := pull d.pending_received other }

/-- The combined update adding a friend and pulling it from the pending_received list. -/
def addFriendPullPR (other : String) (d : FriendDoc) : FriendDoc :=
  { d with friends := addToSet d.friends other,
           pending_received := pull d.pending_received other }

/-- The combined update adding a friend and pulling it from the pending_sent list. -/
def addFriendPullPS (other : String) (d : FriendDoc) : FriendDoc :=
  { d with friends := addToSet d.friends other,
           pending_sent := pull d.pending_sent other }

/-- The two `update_one` calls that record a new pending request from `a`
to `b` (`send_friend_request`, lines 488-495). -/
def sendPendCol (l : List FriendDoc) (a b : String) : List FriendDoc :=
  update_one (update_one l a (addPS b)) b (addPR a)

/-- The two `update_one` calls that make `a` and `b` friends while clearing
the pending pair, shared by the auto-accept branch of `send_friend_request`
(lines 457-464, with `a` the sender) and by `accept_friend_request`
(lines 546-553, with `a` the receiver). -/
def befriendCol (l : List FriendDoc) (a b : String) : List FriendDoc :=
  update_one (update_one l a (addFriendPullPR b)) b (addFriendPullPS a)

/-- The two `update_one` calls of `decline_friend_request` (lines 597-604). -/
def declinePendCol (l : List FriendDoc) (receiver sender : String) :
    List FriendDoc :=
  update_one (update_one l receiver (pullPR sender)) sender (pullPS receiver)

/-! ## Accessor view of the `friends` collection

All invariants are phrased through the three accessors below, which read
the first document of a user the way `find_one` does; a user without a
document is treated as having empty lists. -/

/-- Friends list of the first document of `u` (empty when there is none). -/
def fCol (l : List FriendDoc) (u : String) : List String :=
  ((findDoc l u).map FriendDoc.friends).getD []

/-- The `pending_sent` list of the first document of `u`. -/
def psCol (l : List FriendDoc) (u : String) : List String :=
  ((findDoc l u).map FriendDoc.pending_sent).getD []

/-- The `pending_received` list of the first document of `u`. -/
def prCol (l : List FriendDoc) (u : String) : List String :=
  ((findDoc l u).map FriendDoc.pending_received).getD []

/-! ## Characterization of `find_one` after each write pattern -/

theorem findDoc_update_one (l : List FriendDoc) (u x : String)
    (f : FriendDoc → FriendDoc) (hf : ∀ d, (f d).username = d.username) :
    findDoc (update_one l u f) x =
      if x = u then (findDoc l u).map f else findDoc l x := by
  induction l with
  | nil => simp [findDoc, find_first, update_one]
  | cons d rest ih =>
    by_cases hdu : d.username = u
    · by_cases hxu : x = u
      · subst hxu
        simp [findDoc, find_first, update_one, hdu, hf d]
      · have hdx : ¬ d.username = x := fun h => hxu (by rw [← h, hdu])
        have hfdx : ¬ (f d).username = x := by rw [hf d]; exact hdx
        have hux : ¬ u = x := fun h => hxu h.symm
        simp [findDoc, find_first, update_one, hdu, hxu, hdx, hfdx, hux]
    · by_cases hdx : d.username = x
      · have hxu : ¬ x = u := fun h => hdu (by rw [hdx, h])
        simp [findDoc, find_first, update_one, hdu, hdx, hxu]
      · simpa [findDoc, find_first, update_one, hdu, hdx] using ih

theorem findDoc_append (l : List FriendDoc) (d : FriendDoc) (x : String) :
    findDoc (l ++ [d]) x =
      match findDoc l x with
      | some a => some a
      | none => if d.username = x then some d else none := by
  induction l with
  | nil => simp [findDoc, find_first]
  | cons b rest ih =>
    by_cases hb : b.username = x
    · simp [findDoc, find_first, hb]
    · simp [findDoc, find_first, hb] at ih ⊢
      exact ih

theorem findDoc_ensureDoc (l : List FriendDoc) (u x : String) :
    findDoc (ensureDoc l u) x =
      if x = u then some (docOr l u) else findDoc l x := by
  unfold ensureDoc docOr
  cases h : findDoc l u with
  | some d =>
    by_cases hxu : x = u
    · subst hxu; simp [h]
    · simp [hxu]
  | none =>
    rw [findDoc_append]
    by_cases hxu : x = u
    · subst hxu; simp [h, emptyFriendDoc]
    · cases hx : findDoc l x with
      | some a => simp [hxu]
      | none =>
        have : ¬ (emptyFriendDoc u).username = x := by
          simp [emptyFriendDoc]; exact fun hh => hxu hh.symm
        simp [h, hxu, this]

theorem docOr_friends (l : List FriendDoc) (u : String) :
    (docOr l u).friends = fCol l u := by
  unfold docOr fCol
  cases h : findDoc l u <;> simp [emptyFriendDoc]

theorem docOr_ps (l : List FriendDoc) (u : String) :
    (docOr l u).pending_sent = psCol l u := by
  unfold docOr psCol
  cases h : findDoc l u <;> simp [emptyFriendDoc]

theorem docOr_pr (l : List FriendDoc) (u : String) :
    (docOr l u).pending_received = prCol l u := by
  unfold docOr prCol
  cases h : findDoc l u <;> simp [emptyFriendDoc]

/-- Inserting a fresh empty document is invisible to the three accessors. -/
theorem accessors_append_empty (l : List FriendDoc) (u x : String) :
    fCol (l ++ [emptyFriendDoc u]) x = fCol l x ∧
    psCol (l ++ [emptyFriendDoc u]) x = psCol l x ∧
    prCol (l ++ [emptyFriendDoc u]) x = prCol l x := by
  unfold fCol psCol prCol
  rw [findDoc_append]
  cases h : findDoc l x with
  | some d => simp
  | none =>
    by_cases hux : u = x
    · subst hux; simp [h, emptyFriendDoc]
    · simp [h, emptyFriendDoc, hux]

theorem accessors_ensureDoc (l : List FriendDoc) (u x : String) :
    fCol (ensureDoc l u) x = fCol l x ∧
    psCol (ensureDoc l u) x = psCol l x ∧
    prCol (ensureDoc l u) x = prCol l x := by
  unfold ensureDoc
  cases h : findDoc l u with
  | some d => exact ⟨rfl, rfl, rfl⟩
  | none => exact accessors_append_empty l u x

theorem isSome_of_mem_psCol {l : List FriendDoc} {u a : String}
    (h : a ∈ psCol l u) : (findDoc l u).isSome := by
  unfold psCol at h
  cases hd : findDoc l u with
  | some d => simp
  | none => rw [hd] at h; simp at h

theorem isSome_of_mem_prCol {l : List FriendDoc} {u a : String}
    (h : a ∈ prCol l u) : (findDoc l u).isSome := by
  unfold prCol at h
  cases hd : findDoc l u with
  | some d => simp
  | none => rw [hd] at h; simp at h

theorem findDoc_ensureDoc_isSome (l : List FriendDoc) (u : String) :
    (findDoc (ensureDoc l u) u).isSome := by
  rw [findDoc_ensureDoc]; simp

/-! ## Accessor views of the three write blocks -/

theorem sendPend_views (l : List FriendDoc) (a b : String) (da db : FriendDoc)
    (ha : findDoc l a = some da) (hb : findDoc l b = some db) (hab : a ≠ b) :
    (∀ x, fCol (sendPendCol l a b) x = fCol l x) ∧
    (∀ x, psCol (sendPendCol l a b) x =
      if x = a then addToSet (psCol l a) b else psCol l x) ∧
    (∀ x, prCol (sendPendCol l a b) x =
      if x = b then addToSet (prCol l b) a else prCol l x) := by
  have hba : ¬ b = a := fun h => hab h.symm
  have h1 : ∀ y, findDoc (update_one l a (addPS b)) y =
      if y = a then some (addPS b da) else findDoc l y := by
    intro y
    rw [findDoc_update_one l a y (addPS b) (fun d => rfl), ha]
    by_cases hy : y = a <;> simp [hy]
  have hfd : ∀ x, findDoc (sendPendCol l a b) x =
      if x = b then some (addPR a db)
      else if x = a then some (addPS b da) else findDoc l x := by
    intro x
    unfold sendPendCol
    rw [findDoc_update_one _ b x (addPR a) (fun d => rfl), h1 b, h1 x]
    by_cases hxb : x = b <;> simp [hxb, hba, hb]
  refine ⟨?_, ?_, ?_⟩ <;> intro x
  · unfold fCol
    rw [hfd x]
    by_cases hxb : x = b
    · subst hxb; simp [addPR, hb]
    · by_cases hxa : x = a
      · subst hxa; simp [addPS, hxb, ha]
      · simp [hxb, hxa]
  · unfold psCol
    rw [hfd x]
    by_cases hxb : x = b
    · subst hxb; simp [addPR, hb, hba]
    · by_cases hxa : x = a
      · subst hxa; simp [addPS, hxb, ha]
      · simp [hxb, hxa]
  · unfold prCol
    rw [hfd x]
    by_cases hxb : x = b
    · subst hxb; simp [addPR, hb]
    · by_cases hxa : x = a
      · subst hxa; simp [addPS, hxb, ha]
      · simp [hxb, hxa]

theorem befriend_views (l : List FriendDoc) (a b : String) (da db : FriendDoc)
    (ha : findDoc l a = some da) (hb : findDoc l b = some db) (hab : a ≠ b) :
    (∀ x, fCol (befriendCol l a b) x =
      if x = a then addToSet (fCol l a) b
      else if x = b then addToSet (fCol l b) a else fCol l x) ∧
    (∀ x, psCol (befriendCol l a b) x =
      if x = b then pull (psCol l b) a else psCol l x) ∧
    (∀ x, prCol (befriendCol l a b) x =
      if x = a then pull (prCol l a) b else prCol l x) := by
  have hba : ¬ b = a := fun h => hab h.symm
  have h1 : ∀ y, findDoc (update_one l a (addFriendPullPR b)) y =
      if y = a then some (addFriendPullPR b da) else findDoc l y := by
    intro y
    rw [findDoc_update_one l a y (addFriendPullPR b) (fun d => rfl), ha]
    by_cases hy : y = a <;> simp [hy]
  have hfd : ∀ x, findDoc (befriendCol l a b) x =
      if x = b then some (addFriendPullPS a db)
      else if x = a then some (addFriendPullPR b da) else findDoc l x := by
    intro x
    unfold befriendCol
    rw [findDoc_update_one _ b x (addFriendPullPS a) (fun d => rfl), h1 b, h1 x]
    by_cases hxb : x = b <;> simp [hxb, hba, hb]
  refine ⟨?_, ?_, ?_⟩ <;> intro x
  · unfold fCol
    rw [hfd x]
    by_cases hxb : x = b
    · subst hxb; simp [addFriendPullPS, hb, hba]
    · by_cases hxa : x = a
      · subst hxa; simp [addFriendPullPR, hxb, ha]
      · simp [hxb, hxa]
  · unfold psCol
    rw [hfd x]
    by_cases hxb : x = b
    · subst hxb; simp [addFriendPullPS, hb]
    · by_cases hxa : x = a
      · subst hxa; simp [addFriendPullPR, hxb, ha]
      · simp [hxb, hxa]
  · unfold prCol
    rw [hfd x]
    by_cases hxb : x = b
    · subst hxb; simp [addFriendPullPS, hb, hba]
    · by_cases hxa : x = a
      · subst hxa; simp [addFriendPullPR, hxb, ha]
      · simp [hxb, hxa]

theorem befriend_self_views (l : List FriendDoc) (a : String) (da : FriendDoc)
    (ha : findDoc l a = some da) :
    (∀ x, fCol (befriendCol l a a) x =
      if x = a then addToSet (addToSet (fCol l a) a) a else fCol l x) ∧
    (∀ x, psCol (befriendCol l a a) x =
      if x = a then pull (psCol l a) a else psCol l x) ∧
    (∀ x, prCol (befriendCol l a a) x =
      if x = a then pull (prCol l a) a else prCol l x) := by
  have h1 : ∀ y, findDoc (update_one l a (addFriendPullPR a)) y =
      if y = a then some (addFriendPullPR a da) else findDoc l y := by
    intro y
    rw [findDoc_update_one l a y (addFriendPullPR a) (fun d => rfl), ha]
    by_cases hy : y = a <;> simp [hy]
  have hfd : ∀ x, findDoc (befriendCol l a a) x =
      if x = a then some (addFriendPullPS a (addFriendPullPR a da))
      else findDoc l x := by
    intro x
    unfold befriendCol
    rw [findDoc_update_one _ a x (addFriendPullPS a) (fun d => rfl), h1 a, h1 x]
    by_cases hxa : x = a <;> simp [hxa]
  refine ⟨?_, ?_, ?_⟩ <;> intro x
  · unfold fCol
    rw [hfd x]
    by_cases hxa : x = a
    · subst hxa; simp [addFriendPullPS, addFriendPullPR, ha]
    · simp [hxa]
  · unfold psCol
    rw [hfd x]
    by_cases hxa : x = a
    · subst hxa; simp [addFriendPullPS, addFriendPullPR, ha]
    · simp [hxa]
  · unfold prCol
    rw [hfd x]
    by_cases hxa : x = a
    · subst hxa; simp [addFriendPullPS, addFriendPullPR, ha]
    · simp [hxa]

theorem pull_nil (x : String) : pull [] x = [] := rfl

theorem decline_views (l : List FriendDoc) (r s : String) :
    (∀ x, fCol (declinePendCol l r s) x = fCol l x) ∧
    (∀ x, prCol (declinePendCol l r s) x =
      if x = r then pull (prCol l r) s else prCol l x) ∧
    (∀ x, psCol (declinePendCol l r s) x =
      if x = s then pull (psCol l s) r else psCol l x) := by
  have h1 : ∀ y, findDoc (update_one l r (pullPR s)) y =
      if y = r then (findDoc l r).map (pullPR s) else findDoc l y :=
    fun y => findDoc_update_one l r y (pullPR s) (fun d => rfl)
  by_cases hrs : r = s
  · subst hrs
    have hfd : ∀ x, findDoc (declinePendCol l r r) x =
        if x = r then ((findDoc l r).map (pullPR r)).map (pullPS r)
        else findDoc l x := by
      intro x
      unfold declinePendCol
      rw [findDoc_update_one _ r x (pullPS r) (fun d => rfl), h1 r, h1 x]
      by_cases hxr : x = r <;> simp [hxr]
    refine ⟨?_, ?_, ?_⟩ <;> intro x
    · unfold fCol
      rw [hfd x]
      by_cases hxr : x = r
      · subst hxr
        cases hd : findDoc l x <;> simp [pullPS, pullPR]
      · simp [hxr]
    · unfold prCol
      rw [hfd x]
      by_cases hxr : x = r
      · subst hxr
        cases hd : findDoc l x <;> simp [pullPS, pullPR, pull_nil]
      · simp [hxr]
    · unfold psCol
      rw [hfd x]
      by_cases hxr : x = r
      · subst hxr
        cases hd : findDoc l x <;> simp [pullPS, pullPR, pull_nil]
      · simp [hxr]
  · have hsr : ¬ s = r := fun h => hrs h.symm
    have hfd : ∀ x, findDoc (declinePendCol l r s) x =
        if x = s then (findDoc l s).map (pullPS r)
        else if x = r then (findDoc l r).map (pullPR s) else findDoc l x := by
      intro x
      unfold declinePendCol
      rw [findDoc_update_one _ s x (pullPS r) (fun d => rfl), h1 s, h1 x]
      by_cases hxs : x = s <;> simp [hxs, hsr]
    refine ⟨?_, ?_, ?_⟩ <;> intro x
    · unfold fCol
      rw [hfd x]
      by_cases hxs : x = s
      · subst hxs
        cases hd : findDoc l x <;> simp [pullPS]
      · by_cases hxr : x = r
        · subst hxr
          cases hd : findDoc l x <;> simp [hxs, pullPR]
        · simp [hxs, hxr]
    · unfold prCol
      rw [hfd x]
      by_cases hxs : x = s
      · subst hxs
        have hxr : ¬ x = r := hsr
        cases hd : findDoc l x <;> simp [hxr, pullPS]
      · by_cases hxr : x = r
        · subst hxr
          cases hd : findDoc l x <;> simp [hxs, pullPR, pull_nil]
        · simp [hxs, hxr]
    · unfold psCol
      rw [hfd x]
      by_cases hxs : x = s
      · subst hxs
        cases hd : findDoc l x <;> simp [pullPS, pull_nil]
      · by_cases hxr : x = r
        · subst hxr
          cases hd : findDoc l x <;> simp [hxs, pullPR]
        · simp [hxs, hxr]

/-! ## The embedded request handlers -/

/-- The JSON body returned by a handler: the `success` flag and `message`. -/
structure Resp where
  success : Bool
  message : String
deriving Repr, DecidableEq

/-- `create_notification` (backend.py lines 47-66): insert an unread
notification with the current timestamp, then emit a `new_notification`
socket event when the user is in `active_users`. -/
def create_notification (s : State) (username ntype title message : String)
    (data : List (String × String)) : Notification × State :=
  let n : Notification :=
    { id := s.nextId, username := username, ntype := ntype, title := title,
      message := message, data := data, read := false, created_at := s.clock }
  let evs := if username ∈ s.activeUsers then [SEvent.new_notification username n] else []
  (n, { s with
        notifsCol := s.notifsCol ++ [n], events := s.events ++ evs,
        clock := s.clock + 1, nextId := s.nextId + 1 })

/-- The settings document `register` inserts (lines 186-195). -/
def defaultSettings (username : String) : SettingsDoc :=
  { username := username, theme := "dark", failsafe_key := "ctrl+`",
    failsafe_url := "https://www.google.com", notifications := some true,
    message_notifications := some true, friend_request_notifications := some true,
    sound_notifications := some true }

/-- `register` (lines 140-222): validate, reject a case-insensitive
duplicate username, then insert the account, default settings, an empty
friends document and a welcome notification. -/
def register (s : State) (username0 password : String) : Resp × State :=
  let username := username0.pystrip
  if username = "" ∨ password = "" then
    (⟨false, "Username and password are required"⟩, s)
  else if username.length < 3 then
    (⟨false, "Username must be at least 3 characters long"⟩, s)
  else if password.length < 6 then
    (⟨false, "Password must be at least 6 characters long"⟩, s)
  else if (find_first (fun a => a.username.pylower = username.pylower) s.accounts).isSome then
    (⟨false, "Username already exists"⟩, s)
  else
    let acc : Account :=
      { username := username, password := hash_password password,
        created_at := s.clock, profile_picture := "", status := "offline",
        last_seen := s.clock }
    let s1 := { s with accounts := s.accounts ++ [acc] }
    let s2 := { s1 with settingsCol := s1.settingsCol ++ [defaultSettings username] }
    let s3 := { s2 with friendsCol := s2.friendsCol ++ [emptyFriendDoc username] }
    let s4 := (create_notification s3 username "welcome" "Welcome to Discord Clone!"
      "Your account has been created successfully. Start chatting and making friends!" []).2
    (⟨true, "Account created successfully"⟩, s4)

/-- The notification body of the message fanout (line 314): the first
100 characters of the message, with a trailing ellipsis appended when
the message is longer than 100 characters. -/
def truncate100 (message : String) : String :=
  message.take 100 ++ (if message.length > 100 then "..." else "")

/-- One iteration of the fanout loop of `send_message` (lines 304-316). -/
def notify_friend_step (username message channel : String) (s : State)
    (friend : String) : State :=
  match find_first (fun st => st.username = friend) s.settingsCol with
  | some st =>
    if st.message_notifications.getD true then
      if friend ∉ s.activeUsers ∨ friend ≠ username then
        (create_notification s friend "message" ("New message from " ++ username)
          (truncate100 message) [("sender", username), ("channel", channel)]).2
      else s
    else s
  | none => s

/-- The fanout loop of `send_message` over the friends list. -/
def notify_friends (username message channel : String) :
    State → List String → State
  | s, [] => s
  | s, friend :: rest =>
    notify_friends username message channel
      (notify_friend_step username message channel s friend) rest

/-- The retention step of `send_message` (lines 292-296): when the
channel holds more than 100 messages, find the oldest ones in `_id`
order and delete them from the collection by id. -/
def cap_stage (channel : String) (t : State) : State :=
  let chMsgs := filterp (fun m => m.channel = channel) t.messages
  if chMsgs.length > 100 then
    let oldIds := (chMsgs.take (chMsgs.length - 100)).map Message.id
    { t with messages := filterp (fun m => m.id ∉ oldIds) t.messages }
  else t

/-- The fanout step of `send_message` (lines 301-316): look up the
friends document of the sender and notify each friend. -/
def fanout_stage (username message channel : String) (t : State) : State :=
  match findDoc t.friendsCol username with
  | some fd => notify_friends username message channel t fd.friends
  | none => t

/-- `send_message` (lines 262-327): insert the message, trim the channel
to its 100 newest messages, emit the `new_message` event, then fan out
notifications to the friends of the sender. -/
def send_message (s : State) (username0 message0 channel : String) :
    Resp × State :=
  let username := username0.pystrip
  let message := message0.pystrip
  if username = "" ∨ message = "" then
    (⟨false, "Username and message are required"⟩, s)
  else
    let profile_picture :=
      match find_first (fun a => a.username.pylower = username.pylower) s.accounts with
      | some u => u.profile_picture
      | none => ""
    let newMsg : Message :=
      { id := s.nextId, username := username, message := message,
        timestamp := s.clock, channel := channel, profile_picture := profile_picture }
    let s1 := { s with
                messages := s.messages ++ [newMsg],
                clock := s.clock + 1, nextId := s.nextId + 1 }
    let s2 := cap_stage channel s1
    let s3 := { s2 with events := s2.events ++ [SEvent.new_message channel newMsg] }
    let s4 := fanout_stage username message channel s3
    (⟨true, "Message sent successfully"⟩, s4)

/-- `send_friend_request` (lines 387-517): validations, doc creation for
both sides, then one of: already-friends error, duplicate-request error,
auto-accept of a crossed request, or recording a new pending request with
an optional notification to the receiver. -/
def send_friend_request (s : State) (sender0 receiver0 : String) :
    Resp × State :=
  let sender := sender0.pystrip
  let receiverRaw := receiver0.pystrip
  if sender = "" ∨ receiverRaw = "" then
    (⟨false, "Sender and receiver are required"⟩, s)
  else if sender.pylower = receiverRaw.pylower then
    (⟨false, "Cannot send friend request to yourself"⟩, s)
  else
    match find_first (fun a => a.username.pylower = receiverRaw.pylower) s.accounts with
    | none => (⟨false, "User not found"⟩, s)
    | some receiver_user =>
      let receiver := receiver_user.username
      let sender_friends := docOr s.friendsCol sender
      let fc1 := ensureDoc s.friendsCol sender
      let receiver_friends := docOr fc1 receiver
      let fc2 := ensureDoc fc1 receiver
      let s2 := { s with friendsCol := fc2 }
      if receiver ∈ sender_friends.friends then
        (⟨false, "Already friends with this user"⟩, s2)
      else if receiver ∈ sender_friends.pending_sent then
        (⟨false, "Friend request already sent"⟩, s2)
      else if sender ∈ receiver_friends.pending_sent then
        let s3 := { s2 with friendsCol := befriendCol s2.friendsCol sender receiver }
        let s4 := (create_notification s3 sender "friend_accepted"
          "Friend Request Accepted!" ("You are now friends with " ++ receiver)
          [("friend", receiver)]).2
        let s5 := (create_notification s4 receiver "friend_accepted"
          "Friend Request Accepted!" ("You are now friends with " ++ sender)
          [("friend", sender)]).2
        (⟨true, "Friend request accepted! You are now friends with " ++ receiver⟩, s5)
      else
        let s3 := { s2 with friendsCol := sendPendCol s2.friendsCol sender receiver }
        let s4 :=
          match find_first (fun st => st.username = receiver) s3.settingsCol with
          | some st =>
            if st.friend_request_notifications.getD true then
              (create_notification s3 receiver "friend_request" "New Friend Request"
                (sender ++ " wants to be your friend") [("sender", sender)]).2
            else s3
          | none => s3
        (⟨true, "Friend request sent to " ++ receiver⟩, s4)

/-- `accept_friend_request` (lines 519-580): check that some friends
document of the receiver holds the sender in `pending_received`, then
apply the two friends-list updates and create both notifications. -/
def accept_friend_request (s : State) (receiver0 sender0 : String) :
    Resp × State :=
  let receiver := receiver0.pystrip
  let sender := sender0.pystrip
  if receiver = "" ∨ sender = "" then
    (⟨false, "Receiver and sender are required"⟩, s)
  else
    match find_first (fun d => d.username = receiver ∧ sender ∈ d.pending_received)
        s.friendsCol with
    | none => (⟨false, "Friend request not found"⟩, s)
    | some _ =>
      let s1 := { s with friendsCol := befriendCol s.friendsCol receiver sender }
      let s2 := (create_notification s1 sender "friend_accepted"
        "Friend Request Accepted!" (receiver ++ " accepted your friend request")
        [("friend", receiver)]).2
      let s3 := (create_notification s2 receiver "friend_accepted"
        "New Friend Added!" ("You are now friends with " ++ sender)
        [("friend", sender)]).2
      (⟨true, "You are now friends with " ++ sender⟩, s3)

/-- `decline_friend_request` (lines 582-615): pull the pending pair and
report success unconditionally. -/
def decline_friend_request (s : State) (receiver0 sender0 : String) :
    Resp × State :=
  let receiver := receiver0.pystrip
  let sender := sender0.pystrip
  if receiver = "" ∨ sender = "" then
    (⟨false, "Receiver and sender are required"⟩, s)
  else
    (⟨true, "Friend request declined"⟩,
      { s with friendsCol := declinePendCol s.friendsCol receiver sender })

/-- The update_one call of mark_notification_read (lines 715-718): set
the read flag of the first notification matching the id and the
username. -/
def set_read_one (l : List Notification) (nid : Nat) (username : String) :
    List Notification :=
  match l with
  | [] => []
  | n :: rest =>
    if n.id = nid ∧ n.username = username then { n with read := true } :: rest
    else n :: set_read_one rest nid username

/-- `mark_notification_read` (lines 701-735).  The ObjectId argument is
modelled as the `Nat` id directly; the handler reports success exactly
when the update changed a document (`modified_count`), which MongoDB
counts only when the matched document was still unread. -/
def mark_notification_read (s : State) (notification_id : Nat)
    (username0 : String) : Resp × State :=
  let username := username0.pystrip
  if username = "" then
    (⟨false, "Notification ID and username are required"⟩, s)
  else
    let found := find_first
      (fun n => n.id = notification_id ∧ n.username = username) s.notifsCol
    let modified : Bool := match found with
      | some n => !n.read
      | none => false
    let s1 := { s with notifsCol := set_read_one s.notifsCol notification_id username }
    if modified then (⟨true, "Notification marked as read"⟩, s1)
    else (⟨false, "Notification not found or already read"⟩, s1)

/-! ## State-level accessors and the operation language -/

/-- Friends list of a user as `find_one` reports it. -/
def friendsOf (s : State) (u : String) : List String := fCol s.friendsCol u

/-- The `pending_sent` list of a user. -/
def pendingSentOf (s : State) (u : String) : List String := psCol s.friendsCol u

/-- The `pending_received` list of a user. -/
def pendingReceivedOf (s : State) (u : String) : List String := prCol s.friendsCol u

/-- Each of `A` and `B` is in the friends list of the other. -/
def relFriends (s : State) (A B : String) : Prop :=
  A ∈ friendsOf s B ∧ B ∈ friendsOf s A

/-- `A` has a pending friend request to `B`. -/
def relPending (s : State) (A B : String) : Prop :=
  B ∈ pendingSentOf s A ∧ A ∈ pendingReceivedOf s B

/-- The friendship operations of the verified API surface. -/
inductive Op where
  | reg (username password : String)
  | send (sender receiver : String)
  | accept (receiver sender : String)
  | decline (receiver sender : String)
deriving Repr, DecidableEq

/-- Apply one operation to the state (responses are discarded). -/
def applyOp (s : State) : Op → State
  | Op.reg u p => (register s u p).2
  | Op.send a b => (send_friend_request s a b).2
  | Op.accept r a => (accept_friend_request s r a).2
  | Op.decline r a => (decline_friend_request s r a).2

/-- Run a sequence of operations from the empty store. -/
def run (ops : List Op) : State := ops.foldl applyOp emptyState

/-! ## The friendship invariants -/

/-- Symmetry of the friendship graph at collection level: mutual friends
lists, and matching pending lists. -/
def SymF (l : List FriendDoc) : Prop :=
  ∀ A B : String,
    (A ∈ fCol l B ↔ B ∈ fCol l A) ∧ (A ∈ prCol l B ↔ B ∈ psCol l A)

/-- Each of `A` and `B` is in the friends list of the other (collection level). -/
def relFriendsF (l : List FriendDoc) (A B : String) : Prop :=
  A ∈ fCol l B ∧ B ∈ fCol l A

/-- `A` has a pending request to `B` (collection level). -/
def relPendF (l : List FriendDoc) (A B : String) : Prop :=
  B ∈ psCol l A ∧ A ∈ prCol l B

/-- Mutual exclusion of the three relationship states for each pair of
distinct users. -/
def ExclF (l : List FriendDoc) : Prop :=
  ∀ A B : String, A ≠ B →
    ¬(relFriendsF l A B ∧ relPendF l A B) ∧
    ¬(relFriendsF l A B ∧ relPendF l B A) ∧
    ¬(relPendF l A B ∧ relPendF l B A)

/-- Every document shadowed by an earlier document of the same username is
the untouched empty document (`update_one` and `find_one` only ever reach
the first one, and the only duplicate insertion, in `register`, inserts an
empty document). -/
def ShadowEmptyF : List FriendDoc → Prop
  | [] => True
  | d :: rest =>
    (∀ e ∈ rest, e.username = d.username → e = emptyFriendDoc d.username) ∧
      ShadowEmptyF rest

/-- The inductive invariant of the friends collection. -/
def InvF (l : List FriendDoc) : Prop := SymF l ∧ ExclF l ∧ ShadowEmptyF l

theorem SymF_congr {l l' : List FriendDoc}
    (hf : ∀ x, fCol l' x = fCol l x) (hps : ∀ x, psCol l' x = psCol l x)
    (hpr : ∀ x, prCol l' x = prCol l x) (h : SymF l) : SymF l' := by
  intro A B
  rw [hf, hf, hpr, hps]
  exact h A B

theorem ExclF_congr {l l' : List FriendDoc}
    (hf : ∀ x, fCol l' x = fCol l x) (hps : ∀ x, psCol l' x = psCol l x)
    (hpr : ∀ x, prCol l' x = prCol l x) (h : ExclF l) : ExclF l' := by
  intro A B hAB
  have hrf : ∀ X Y, relFriendsF l' X Y ↔ relFriendsF l X Y := by
    intro X Y; unfold relFriendsF; rw [hf, hf]
  have hrp : ∀ X Y, relPendF l' X Y ↔ relPendF l X Y := by
    intro X Y; unfold relPendF; rw [hps, hpr]
  simp only [hrf, hrp]
  exact h A B hAB

/-- Elements of `update_one l u f` are old elements or the image of an
old element whose username is `u`. -/
theorem mem_update_one {l : List FriendDoc} {u : String}
    {f : FriendDoc → FriendDoc} :
    ∀ e ∈ update_one l u f, e ∈ l ∨ ∃ d, d ∈ l ∧ e = f d ∧ d.username = u := by
  induction l with
  | nil => intro e he; simp [update_one] at he
  | cons d rest ih =>
    intro e he
    by_cases hdu : d.username = u
    · rw [update_one, if_pos hdu] at he
      rcases List.mem_cons.mp he with rfl | he'
      · exact Or.inr ⟨d, List.mem_cons_self _ _, rfl, hdu⟩
      · exact Or.inl (List.mem_cons_of_mem _ he')
    · rw [update_one, if_neg hdu] at he
      rcases List.mem_cons.mp he with rfl | he'
      · exact Or.inl (List.mem_cons_self _ _)
      · rcases ih e he' with h1 | ⟨d', hd', rfl, hu'⟩
        · exact Or.inl (List.mem_cons_of_mem _ h1)
        · exact Or.inr ⟨d', List.mem_cons_of_mem _ hd', rfl, hu'⟩

theorem ShadowEmptyF_update_one {l : List FriendDoc} {u : String}
    {f : FriendDoc → FriendDoc} (hf : ∀ d, (f d).username = d.username)
    (h : ShadowEmptyF l) : ShadowEmptyF (update_one l u f) := by
  induction l with
  | nil => exact h
  | cons d rest ih =>
    obtain ⟨h1, h2⟩ := h
    by_cases hdu : d.username = u
    · rw [update_one, if_pos hdu]
      refine ⟨?_, h2⟩
      intro e he heq
      rw [hf d] at heq
      exact (h1 e he heq).trans (by rw [hf d])
    · rw [update_one, if_neg hdu]
      refine ⟨?_, ih h2⟩
      intro e he heq
      rcases mem_update_one e he with he' | ⟨d', hd', rfl, hu'⟩
      · exact h1 e he' heq
      · rw [hf d'] at heq
        exact absurd (hu'.symm.trans heq).symm hdu

theorem ShadowEmptyF_append_empty {l : List FriendDoc} (u : String)
    (h : ShadowEmptyF l) : ShadowEmptyF (l ++ [emptyFriendDoc u]) := by
  induction l with
  | nil =>
    refine ⟨?_, trivial⟩
    intro e he heq
    simp at he
  | cons d rest ih =>
    obtain ⟨h1, h2⟩ := h
    refine ⟨?_, ih h2⟩
    intro e he heq
    rcases List.mem_append.mp he with he' | he'
    · exact h1 e he' heq
    · rcases List.mem_singleton.mp he' with rfl
      rw [show (emptyFriendDoc u).username = u from rfl] at heq
      rw [← heq]

theorem ShadowEmptyF_ensureDoc {l : List FriendDoc} (u : String)
    (h : ShadowEmptyF l) : ShadowEmptyF (ensureDoc l u) := by
  unfold ensureDoc
  cases findDoc l u with
  | some d => exact h
  | none => exact ShadowEmptyF_append_empty u h

theorem prCol_cons (d : FriendDoc) (rest : List FriendDoc) (r : String) :
    prCol (d :: rest) r =
      if d.username = r then d.pending_received else prCol rest r := by
  unfold prCol findDoc
  simp only [find_first]
  by_cases h : d.username = r <;> simp [h]

/-- Under `ShadowEmptyF`, the combined `find_one` of
`accept_friend_request` succeeds exactly when the first document of the
receiver holds the sender. -/
theorem mem_prCol_of_find_combined {l : List FriendDoc} {r s : String}
    {d0 : FriendDoc} (hsh : ShadowEmptyF l)
    (h : find_first (fun d => d.username = r ∧ s ∈ d.pending_received) l = some d0) :
    s ∈ prCol l r := by
  induction l with
  | nil => simp [find_first] at h
  | cons d rest ih =>
    obtain ⟨h1, h2⟩ := hsh
    by_cases hp : d.username = r ∧ s ∈ d.pending_received
    · rw [prCol_cons, if_pos hp.1]
      exact hp.2
    · rw [find_first, if_neg hp] at h
      by_cases hdr : d.username = r
      · obtain ⟨hmem, hp0⟩ := find_first_mem h
        have he : d0 = emptyFriendDoc d.username :=
          h1 d0 hmem (hp0.1.trans hdr.symm)
        rw [he] at hp0
        simp [emptyFriendDoc] at hp0
      · rw [prCol_cons, if_neg hdr]
        exact ih h2 h

theorem find_combined_none_iff {l : List FriendDoc} {r s : String}
    (hsh : ShadowEmptyF l) :
    find_first (fun d => d.username = r ∧ s ∈ d.pending_received) l = none ↔
      s ∉ prCol l r := by
  constructor
  · intro h hmem
    have hsome := isSome_of_mem_prCol hmem
    unfold prCol at hmem
    cases hd : findDoc l r with
    | none => rw [hd] at hmem; simp at hmem
    | some d =>
      rw [hd] at hmem
      simp at hmem
      obtain ⟨hdl, hdu⟩ := find_first_mem hd
      have := find_first_isSome_of_mem
        (p := fun d => d.username = r ∧ s ∈ d.pending_received) hdl ⟨hdu, hmem⟩
      rw [h] at this
      simp at this
  · intro h
    cases hf : find_first (fun d => d.username = r ∧ s ∈ d.pending_received) l with
    | none => rfl
    | some d0 => exact absurd (mem_prCol_of_find_combined hsh hf) h

/-! ## Membership transfer lemmas for the write blocks -/

theorem mem_sendPend {l : List FriendDoc} {a b : String} {da db : FriendDoc}
    (ha : findDoc l a = some da) (hb : findDoc l b = some db) (hab : a ≠ b) :
    (∀ x y, y ∈ fCol (sendPendCol l a b) x ↔ y ∈ fCol l x) ∧
    (∀ x y, y ∈ psCol (sendPendCol l a b) x ↔
      (y ∈ psCol l x ∨ (x = a ∧ y = b))) ∧
    (∀ x y, y ∈ prCol (sendPendCol l a b) x ↔
      (y ∈ prCol l x ∨ (x = b ∧ y = a))) := by
  obtain ⟨vf, vps, vpr⟩ := sendPend_views l a b da db ha hb hab
  refine ⟨?_, ?_, ?_⟩ <;> intro x y
  · rw [vf]
  · rw [vps]
    by_cases hxa : x = a
    · subst hxa; simp [mem_addToSet]
    · simp [hxa]
  · rw [vpr]
    by_cases hxb : x = b
    · subst hxb; simp [mem_addToSet]
    · simp [hxb]

theorem mem_befriend {l : List FriendDoc} {a b : String} {da db : FriendDoc}
    (ha : findDoc l a = some da) (hb : findDoc l b = some db) :
    (∀ x y, y ∈ fCol (befriendCol l a b) x ↔
      (y ∈ fCol l x ∨ (x = a ∧ y = b) ∨ (x = b ∧ y = a))) ∧
    (∀ x y, y ∈ psCol (befriendCol l a b) x ↔
      (y ∈ psCol l x ∧ ¬(x = b ∧ y = a))) ∧
    (∀ x y, y ∈ prCol (befriendCol l a b) x ↔
      (y ∈ prCol l x ∧ ¬(x = a ∧ y = b))) := by
  by_cases hab : a = b
  · subst hab
    have hda : da = db := by rw [ha] at hb; exact Option.some.inj hb
    subst hda
    obtain ⟨vf, vps, vpr⟩ := befriend_self_views l a da ha
    refine ⟨?_, ?_, ?_⟩ <;> intro x y
    · rw [vf]
      by_cases hxa : x = a
      · subst hxa; simp [mem_addToSet]
      · simp [hxa]
    · rw [vps]
      by_cases hxa : x = a
      · subst hxa; simp [mem_pull]
      · simp [hxa]
    · rw [vpr]
      by_cases hxa : x = a
      · subst hxa; simp [mem_pull]
      · simp [hxa]
  · obtain ⟨vf, vps, vpr⟩ := befriend_views l a b da db ha hb hab
    refine ⟨?_, ?_, ?_⟩ <;> intro x y
    · rw [vf]
      by_cases hxa : x = a
      · subst hxa; simp [mem_addToSet, hab]
      · by_cases hxb : x = b
        · subst hxb
          have hba : ¬ x = a := hxa
          simp [hxa, mem_addToSet]
        · simp [hxa, hxb]
    · rw [vps]
      by_cases hxb : x = b
      · subst hxb; simp [mem_pull]
      · simp [hxb]
    · rw [vpr]
      by_cases hxa : x = a
      · subst hxa; simp [mem_pull]
      · simp [hxa]

theorem mem_decline {l : List FriendDoc} {r s : String} :
    (∀ x y, y ∈ fCol (declinePendCol l r s) x ↔ y ∈ fCol l x) ∧
    (∀ x y, y ∈ prCol (declinePendCol l r s) x ↔
      (y ∈ prCol l x ∧ ¬(x = r ∧ y = s))) ∧
    (∀ x y, y ∈ psCol (declinePendCol l r s) x ↔
      (y ∈ psCol l x ∧ ¬(x = s ∧ y = r))) := by
  obtain ⟨vf, vpr, vps⟩ := decline_views l r s
  refine ⟨?_, ?_, ?_⟩ <;> intro x y
  · rw [vf]
  · rw [vpr]
    by_cases hxr : x = r
    · subst hxr; simp [mem_pull]
    · simp [hxr]
  · rw [vps]
    by_cases hxs : x = s
    · subst hxs; simp [mem_pull]
    · simp [hxs]

/-! ## Preservation of the invariants by each write block -/

theorem SymF_sendPend {l : List FriendDoc} {a b : String} {da db : FriendDoc}
    (ha : findDoc l a = some da) (hb : findDoc l b = some db) (hab : a ≠ b)
    (hsym : SymF l) : SymF (sendPendCol l a b) := by
  obtain ⟨mf, mps, mpr⟩ := mem_sendPend ha hb hab
  intro A B
  constructor
  · rw [mf, mf]
    exact (hsym A B).1
  · rw [mpr, mps]
    have h2 := (hsym A B).2
    tauto

theorem ExclF_sendPend {l : List FriendDoc} {a b : String} {da db : FriendDoc}
    (ha : findDoc l a = some da) (hb : findDoc l b = some db) (hab : a ≠ b)
    (hexcl : ExclF l) (hgf : b ∉ fCol l a) (hgs : b ∉ psCol l a)
    (hgr : a ∉ psCol l b) : ExclF (sendPendCol l a b) := by
  obtain ⟨mf, mps, mpr⟩ := mem_sendPend ha hb hab
  have hrf : ∀ X Y, relFriendsF (sendPendCol l a b) X Y ↔ relFriendsF l X Y := by
    intro X Y; unfold relFriendsF; rw [mf, mf]
  have hrp : ∀ X Y, relPendF (sendPendCol l a b) X Y ↔
      (relPendF l X Y ∨ (X = a ∧ Y = b)) := by
    intro X Y
    unfold relPendF
    rw [mps, mpr]
    constructor
    · rintro ⟨h1 | ⟨rfl, rfl⟩, h2 | ⟨h3, h4⟩⟩
      · exact Or.inl ⟨h1, h2⟩
      · exact Or.inr ⟨h4, h3⟩
      · exact Or.inr ⟨rfl, rfl⟩
      · exact Or.inr ⟨rfl, rfl⟩
    · rintro (⟨h1, h2⟩ | ⟨rfl, rfl⟩)
      · exact ⟨Or.inl h1, Or.inl h2⟩
      · exact ⟨Or.inr ⟨rfl, rfl⟩, Or.inr ⟨rfl, rfl⟩⟩
  intro A B hAB
  obtain ⟨e1, e2, e3⟩ := hexcl A B hAB
  rw [hrf, hrp, hrp]
  refine ⟨?_, ?_, ?_⟩
  · rintro ⟨hF, hP | ⟨rfl, rfl⟩⟩
    · exact e1 ⟨hF, hP⟩
    · exact hgf hF.2
  · rintro ⟨hF, hP | ⟨rfl, rfl⟩⟩
    · exact e2 ⟨hF, hP⟩
    · exact hgf hF.1
  · rintro ⟨hP1 | ⟨rfl, rfl⟩, hP2 | ⟨h5, h6⟩⟩
    · exact e3 ⟨hP1, hP2⟩
    · rw [h5, h6] at hP1
      exact hgr hP1.1
    · exact hgr hP2.1
    · exact hab h6

theorem SymF_befriend {l : List FriendDoc} {a b : String} {da db : FriendDoc}
    (ha : findDoc l a = some da) (hb : findDoc l b = some db)
    (hsym : SymF l) : SymF (befriendCol l a b) := by
  obtain ⟨mf, mps, mpr⟩ := mem_befriend ha hb
  intro A B
  constructor
  · rw [mf, mf]
    have h1 := (hsym A B).1
    tauto
  · rw [mpr, mps]
    have h2 := (hsym A B).2
    tauto

theorem ExclF_befriend {l : List FriendDoc} {a b : String} {da db : FriendDoc}
    (ha : findDoc l a = some da) (hb : findDoc l b = some db)
    (hexcl : ExclF l) (hg : a ≠ b → b ∉ psCol l a) :
    ExclF (befriendCol l a b) := by
  obtain ⟨mf, mps, mpr⟩ := mem_befriend ha hb
  have hrf : ∀ X Y, relFriendsF (befriendCol l a b) X Y ↔
      (relFriendsF l X Y ∨ (X = a ∧ Y = b) ∨ (X = b ∧ Y = a)) := by
    intro X Y
    unfold relFriendsF
    rw [mf, mf]
    tauto
  have hrp : ∀ X Y, relPendF (befriendCol l a b) X Y ↔
      (relPendF l X Y ∧ ¬(X = b ∧ Y = a)) := by
    intro X Y
    unfold relPendF
    rw [mps, mpr]
    tauto
  intro A B hAB
  obtain ⟨e1, e2, e3⟩ := hexcl A B hAB
  rw [hrf, hrp, hrp]
  refine ⟨?_, ?_, ?_⟩
  · rintro ⟨hF | ⟨rfl, rfl⟩ | ⟨rfl, rfl⟩, hP⟩
    · exact e1 ⟨hF, hP.1⟩
    · exact hg hAB hP.1.1
    · exact hP.2 ⟨rfl, rfl⟩
  · rintro ⟨hF | ⟨rfl, rfl⟩ | ⟨rfl, rfl⟩, hP⟩
    · exact e2 ⟨hF, hP.1⟩
    · exact hP.2 ⟨rfl, rfl⟩
    · exact hg (fun h => hAB h.symm) hP.1.1
  · rintro ⟨hP1, hP2⟩
    exact e3 ⟨hP1.1, hP2.1⟩

theorem SymF_decline {l : List FriendDoc} {r s : String}
    (hsym : SymF l) : SymF (declinePendCol l r s) := by
  obtain ⟨mf, mpr, mps⟩ := mem_decline (l := l) (r := r) (s := s)
  intro A B
  constructor
  · rw [mf, mf]
    exact (hsym A B).1
  · rw [mpr, mps]
    have h2 := (hsym A B).2
    tauto

theorem ExclF_decline {l : List FriendDoc} {r s : String}
    (hexcl : ExclF l) : ExclF (declinePendCol l r s) := by
  obtain ⟨mf, mpr, mps⟩ := mem_decline (l := l) (r := r) (s := s)
  have hrf : ∀ X Y, relFriendsF (declinePendCol l r s) X Y ↔ relFriendsF l X Y := by
    intro X Y; unfold relFriendsF; rw [mf, mf]
  have hrp : ∀ X Y, relPendF (declinePendCol l r s) X Y →
      relPendF l X Y := by
    intro X Y h
    obtain ⟨h1, h2⟩ := h
    exact ⟨(mps X Y).mp h1 |>.1, (mpr Y X).mp h2 |>.1⟩
  intro A B hAB
  obtain ⟨e1, e2, e3⟩ := hexcl A B hAB
  refine ⟨?_, ?_, ?_⟩
  · rintro ⟨hF, hP⟩
    exact e1 ⟨(hrf A B).mp hF, hrp A B hP⟩
  · rintro ⟨hF, hP⟩
    exact e2 ⟨(hrf A B).mp hF, hrp B A hP⟩
  · rintro ⟨hP1, hP2⟩
    exact e3 ⟨hrp A B hP1, hrp B A hP2⟩

/-! ## Invariant preservation by each handler -/

theorem ShadowEmptyF_sendPend {l : List FriendDoc} {a b : String}
    (h : ShadowEmptyF l) : ShadowEmptyF (sendPendCol l a b) :=
  ShadowEmptyF_update_one (fun _ => rfl)
    (ShadowEmptyF_update_one (fun _ => rfl) h)

theorem ShadowEmptyF_befriend {l : List FriendDoc} {a b : String}
    (h : ShadowEmptyF l) : ShadowEmptyF (befriendCol l a b) :=
  ShadowEmptyF_update_one (fun _ => rfl)
    (ShadowEmptyF_update_one (fun _ => rfl) h)

theorem ShadowEmptyF_declinePend {l : List FriendDoc} {r s : String}
    (h : ShadowEmptyF l) : ShadowEmptyF (declinePendCol l r s) :=
  ShadowEmptyF_update_one (fun _ => rfl)
    (ShadowEmptyF_update_one (fun _ => rfl) h)

theorem InvF_ensureDoc {l : List FriendDoc} (u : String) (h : InvF l) :
    InvF (ensureDoc l u) := by
  obtain ⟨hsym, hexcl, hsh⟩ := h
  refine ⟨?_, ?_, ShadowEmptyF_ensureDoc u hsh⟩
  · exact SymF_congr (fun x => (accessors_ensureDoc l u x).1)
      (fun x => (accessors_ensureDoc l u x).2.1)
      (fun x => (accessors_ensureDoc l u x).2.2) hsym
  · exact ExclF_congr (fun x => (accessors_ensureDoc l u x).1)
      (fun x => (accessors_ensureDoc l u x).2.1)
      (fun x => (accessors_ensureDoc l u x).2.2) hexcl

theorem InvF_append_empty {l : List FriendDoc} (u : String) (h : InvF l) :
    InvF (l ++ [emptyFriendDoc u]) := by
  obtain ⟨hsym, hexcl, hsh⟩ := h
  refine ⟨?_, ?_, ShadowEmptyF_append_empty u hsh⟩
  · exact SymF_congr (fun x => (accessors_append_empty l u x).1)
      (fun x => (accessors_append_empty l u x).2.1)
      (fun x => (accessors_append_empty l u x).2.2) hsym
  · exact ExclF_congr (fun x => (accessors_append_empty l u x).1)
      (fun x => (accessors_append_empty l u x).2.1)
      (fun x => (accessors_append_empty l u x).2.2) hexcl

theorem create_notification_friendsCol (s : State)
    (username ntype title message : String) (data : List (String × String)) :
    ((create_notification s username ntype title message data).2).friendsCol
      = s.friendsCol := rfl

theorem InvF_register_op (s : State) (u0 p0 : String)
    (h : InvF s.friendsCol) : InvF ((register s u0 p0).2).friendsCol := by
  simp only [register]
  split
  · exact h
  split
  · exact h
  split
  · exact h
  split
  · exact h
  exact InvF_append_empty _ h

theorem InvF_decline_op (s : State) (r0 s0 : String)
    (h : InvF s.friendsCol) :
    InvF ((decline_friend_request s r0 s0).2).friendsCol := by
  simp only [decline_friend_request]
  split
  · exact h
  obtain ⟨hsym, hexcl, hsh⟩ := h
  exact ⟨SymF_decline hsym, ExclF_decline hexcl, ShadowEmptyF_declinePend hsh⟩

theorem InvF_accept_op (s : State) (r0 s0 : String)
    (h : InvF s.friendsCol) :
    InvF ((accept_friend_request s r0 s0).2).friendsCol := by
  obtain ⟨hsym, hexcl, hsh⟩ := h
  simp only [accept_friend_request]
  split
  · exact ⟨hsym, hexcl, hsh⟩
  split
  · exact ⟨hsym, hexcl, hsh⟩
  rename_i d0 hfind
  have hpr : s0.pystrip ∈ prCol s.friendsCol r0.pystrip :=
    mem_prCol_of_find_combined hsh hfind
  have hps : r0.pystrip ∈ psCol s.friendsCol s0.pystrip :=
    ((hsym s0.pystrip r0.pystrip).2).mp hpr
  have hrdoc := isSome_of_mem_prCol hpr
  have hsdoc := isSome_of_mem_psCol hps
  obtain ⟨dr, hdr⟩ := Option.isSome_iff_exists.mp hrdoc
  obtain ⟨ds, hds⟩ := Option.isSome_iff_exists.mp hsdoc
  have hg : r0.pystrip ≠ s0.pystrip → s0.pystrip ∉ psCol s.friendsCol r0.pystrip := by
    intro hne hmem
    have hpr2 : r0.pystrip ∈ prCol s.friendsCol s0.pystrip :=
      ((hsym r0.pystrip s0.pystrip).2).mpr hmem
    have hne' : s0.pystrip ≠ r0.pystrip := fun hh => hne hh.symm
    exact (hexcl s0.pystrip r0.pystrip hne').2.2 ⟨⟨hps, hpr⟩, ⟨hmem, hpr2⟩⟩
  exact ⟨SymF_befriend hdr hds hsym, ExclF_befriend hdr hds hexcl hg,
    ShadowEmptyF_befriend hsh⟩

theorem InvF_send_op (s : State) (a0 b0 : String) (h : InvF s.friendsCol) :
    InvF ((send_friend_request s a0 b0).2).friendsCol := by
  simp only [send_friend_request]
  split
  · exact h
  split
  · exact h
  rename_i hlow
  split
  · exact h
  rename_i receiver_user hfound
  have hrecLow : receiver_user.username.pylower = b0.pystrip.pylower :=
    (find_first_mem hfound).2
  have hne : a0.pystrip ≠ receiver_user.username := by
    intro heq
    exact hlow (by rw [heq, hrecLow])
  have hI2 : InvF (ensureDoc (ensureDoc s.friendsCol a0.pystrip) receiver_user.username) :=
    InvF_ensureDoc receiver_user.username (InvF_ensureDoc a0.pystrip h)
  have hps2 : ∀ x,
      psCol (ensureDoc (ensureDoc s.friendsCol a0.pystrip) receiver_user.username) x
        = psCol s.friendsCol x := fun x =>
    ((accessors_ensureDoc (ensureDoc s.friendsCol a0.pystrip) receiver_user.username x).2.1).trans
      ((accessors_ensureDoc s.friendsCol a0.pystrip x).2.1)
  have hf2 : ∀ x,
      fCol (ensureDoc (ensureDoc s.friendsCol a0.pystrip) receiver_user.username) x
        = fCol s.friendsCol x := fun x =>
    ((accessors_ensureDoc (ensureDoc s.friendsCol a0.pystrip) receiver_user.username x).1).trans
      ((accessors_ensureDoc s.friendsCol a0.pystrip x).1)
  have hdocS : findDoc (ensureDoc (ensureDoc s.friendsCol a0.pystrip) receiver_user.username)
      a0.pystrip = some (docOr s.friendsCol a0.pystrip) := by
    rw [findDoc_ensureDoc, if_neg hne, findDoc_ensureDoc, if_pos rfl]
  have hdocR : findDoc (ensureDoc (ensureDoc s.friendsCol a0.pystrip) receiver_user.username)
      receiver_user.username
      = some (docOr (ensureDoc s.friendsCol a0.pystrip) receiver_user.username) := by
    rw [findDoc_ensureDoc, if_pos rfl]
  split
  · exact hI2
  rename_i hnf
  split
  · exact hI2
  rename_i hns
  obtain ⟨hsym2, hexcl2, hsh2⟩ := hI2
  split
  · rename_i hcross
    refine ⟨SymF_befriend hdocS hdocR hsym2, ?_, ShadowEmptyF_befriend hsh2⟩
    refine ExclF_befriend hdocS hdocR hexcl2 ?_
    intro _ hmem
    apply hns
    rw [docOr_ps, ← hps2 a0.pystrip]
    exact hmem
  · rename_i hcross
    have hgf : receiver_user.username ∉
        fCol (ensureDoc (ensureDoc s.friendsCol a0.pystrip) receiver_user.username) a0.pystrip := by
      rw [hf2, ← docOr_friends]
      exact hnf
    have hgs : receiver_user.username ∉
        psCol (ensureDoc (ensureDoc s.friendsCol a0.pystrip) receiver_user.username) a0.pystrip := by
      rw [hps2, ← docOr_ps]
      exact hns
    have hgr : a0.pystrip ∉
        psCol (ensureDoc (ensureDoc s.friendsCol a0.pystrip) receiver_user.username)
          receiver_user.username := by
      rw [(accessors_ensureDoc (ensureDoc s.friendsCol a0.pystrip)
        receiver_user.username receiver_user.username).2.1, ← docOr_ps]
      exact hcross
    have hmain : InvF (sendPendCol
        (ensureDoc (ensureDoc s.friendsCol a0.pystrip) receiver_user.username)
        a0.pystrip receiver_user.username) :=
      ⟨SymF_sendPend hdocS hdocR hne hsym2,
        ExclF_sendPend hdocS hdocR hne hexcl2 hgf hgs hgr,
        ShadowEmptyF_sendPend hsh2⟩
    split
    · split
      · exact hmain
      · exact hmain
    · exact hmain

theorem InvF_emptyState : InvF emptyState.friendsCol := by
  refine ⟨?_, ?_, trivial⟩
  · intro A B
    simp [fCol, psCol, prCol, findDoc, find_first, emptyState]
  · intro A B hAB
    simp [relFriendsF, relPendF, fCol, psCol, prCol, findDoc, find_first, emptyState]

theorem InvF_applyOp (s : State) (op : Op) (h : InvF s.friendsCol) :
    InvF (applyOp s op).friendsCol := by
  cases op with
  | reg u p => exact InvF_register_op s u p h
  | send a b => exact InvF_send_op s a b h
  | accept r a => exact InvF_accept_op s r a h
  | decline r a => exact InvF_decline_op s r a h

theorem InvF_run (ops : List Op) : InvF (run ops).friendsCol := by
  suffices hgen : ∀ (s : State), InvF s.friendsCol →
      InvF (ops.foldl applyOp s).friendsCol by
    exact hgen emptyState InvF_emptyState
  induction ops with
  | nil => intro s hs; exact hs
  | cons op rest ih => intro s hs; exact ih _ (InvF_applyOp s op hs)

/-- C1: for every pair of distinct users `A` and `B`, after any sequence
of `register`, `send_friend_request`, `accept_friend_request` and
`decline_friend_request` operations, at most one relationship state holds
between `A` and `B`: the states mutual-friends, pending `A` to `B` and
pending `B` to `A` never hold two at a time. -/
theorem friendship_state_exclusive (ops : List Op) (A B : String)
    (hAB : A ≠ B) :
    ¬(relFriends (run ops) A B ∧ relPending (run ops) A B) ∧
    ¬(relFriends (run ops) A B ∧ relPending (run ops) B A) ∧
    ¬(relPending (run ops) A B ∧ relPending (run ops) B A) :=
  (InvF_run ops).2.1 A B hAB

/-- Witness for C1 at a concrete input. -/
theorem friendship_state_exclusive_witness :
    ("alice" : String) ≠ "bob" ∧
    (¬(relFriends (run []) "alice" "bob" ∧ relPending (run []) "alice" "bob") ∧
     ¬(relFriends (run []) "alice" "bob" ∧ relPending (run []) "bob" "alice") ∧
     ¬(relPending (run []) "alice" "bob" ∧ relPending (run []) "bob" "alice")) :=
  ⟨by decide, friendship_state_exclusive [] "alice" "bob" (by decide)⟩

/-- C9: friendship and the pending lists are kept symmetric by every
sequence of friendship operations run from the empty store: `A` is in the
friends list of `B` exactly when `B` is in the friends list of `A`, and
`A` is in the `pending_received` list of `B` exactly when `B` is in the
`pending_sent` list of `A`. -/
theorem friendship_symmetric (ops : List Op) (A B : String) :
    (A ∈ friendsOf (run ops) B ↔ B ∈ friendsOf (run ops) A) ∧
    (A ∈ pendingReceivedOf (run ops) B ↔ B ∈ pendingSentOf (run ops) A) :=
  (InvF_run ops).1 A B

/-! ## Claims about single handlers -/

theorem find_first_isSome_iff {α : Type} {p : α → Prop} [DecidablePred p]
    {l : List α} : (find_first p l).isSome ↔ ∃ x ∈ l, p x := by
  constructor
  · intro h
    obtain ⟨a, ha⟩ := Option.isSome_iff_exists.mp h
    obtain ⟨h1, h2⟩ := find_first_mem ha
    exact ⟨a, h1, h2⟩
  · rintro ⟨x, hx, hpx⟩
    exact find_first_isSome_of_mem hx hpx

/-- The account document `register` builds for a fresh username. -/
def registeredAccount (s : State) (username password : String) : Account :=
  { username := username, password := hash_password password,
    created_at := s.clock, profile_picture := "", status := "offline",
    last_seen := s.clock }

/-- The welcome notification `register` creates. -/
def welcomeNotification (s : State) (username : String) : Notification :=
  { id := s.nextId, username := username, ntype := "welcome",
    title := "Welcome to Discord Clone!",
    message := "Your account has been created successfully. Start chatting and making friends!",
    data := [], read := false, created_at := s.clock }

/-- C4: `create_notification` always inserts the notification, unread and
carrying the creation timestamp, into the notification store, and appends
a `new_notification` socket event exactly when the username is in
`active_users`; a disconnected user gets the stored notification but no
push. -/
theorem create_notification_spec (s : State)
    (username ntype title message : String) (data : List (String × String)) :
    ((create_notification s username ntype title message data).2).notifsCol
        = s.notifsCol ++ [(create_notification s username ntype title message data).1] ∧
    (create_notification s username ntype title message data).1.read = false ∧
    (create_notification s username ntype title message data).1.created_at = s.clock ∧
    (create_notification s username ntype title message data).1.username = username ∧
    ((create_notification s username ntype title message data).2).events
        = s.events ++ (if username ∈ s.activeUsers
            then [SEvent.new_notification username
              (create_notification s username ntype title message data).1]
            else []) ∧
    (((create_notification s username ntype title message data).2).events = s.events
      ↔ username ∉ s.activeUsers) := by
  refine ⟨rfl, rfl, rfl, rfl, rfl, ?_⟩
  by_cases hmem : username ∈ s.activeUsers
  · simp [create_notification, hmem]
  · simp [create_notification, hmem]

/-- C7: with a trimmed username of at least 3 characters and a password
of at least 6, `register` fails with `Username already exists` exactly
when some stored account matches the username up to letter case, and
otherwise appends the account (with the hashed password), the default
settings document, an empty friends document and the welcome
notification. -/
theorem register_spec (s : State) (username password : String)
    (htrim : username.pystrip = username) (hlen : 3 ≤ username.length)
    (hplen : 6 ≤ password.length) :
    ((register s username password).1 = ⟨false, "Username already exists"⟩ ↔
      ∃ a ∈ s.accounts, a.username.pylower = username.pylower) ∧
    ((¬ ∃ a ∈ s.accounts, a.username.pylower = username.pylower) →
      ((register s username password).2).accounts
          = s.accounts ++ [registeredAccount s username password] ∧
      ((register s username password).2).settingsCol
          = s.settingsCol ++ [defaultSettings username] ∧
      ((register s username password).2).friendsCol
          = s.friendsCol ++ [emptyFriendDoc username] ∧
      ((register s username password).2).notifsCol
          = s.notifsCol ++ [welcomeNotification s username] ∧
      (register s username password).1 = ⟨true, "Account created successfully"⟩) := by
  have hune : username ≠ "" := by
    intro hh
    rw [hh] at hlen
    exact absurd hlen (by decide)
  have hpne : password ≠ "" := by
    intro hh
    rw [hh] at hplen
    exact absurd hplen (by decide)
  simp only [register, htrim]
  rw [if_neg (not_or.mpr ⟨hune, hpne⟩),
    if_neg (show ¬ username.length < 3 by omega),
    if_neg (show ¬ password.length < 6 by omega)]
  by_cases hex :
      (find_first (fun a => a.username.pylower = username.pylower) s.accounts).isSome
  · rw [if_pos hex]
    constructor
    · constructor
      · intro _
        exact find_first_isSome_iff.mp hex
      · intro _
        rfl
    · intro hnot
      exact absurd (find_first_isSome_iff.mp hex) hnot
  · rw [if_neg hex]
    constructor
    · constructor
      · intro heq
        exact Bool.noConfusion (congrArg Resp.success heq)
      · intro hexist
        exact absurd (find_first_isSome_iff.mpr hexist) hex
    · intro _
      exact ⟨rfl, rfl, rfl, rfl, rfl⟩

/-- Witness for C7 at a concrete input. -/
theorem register_spec_witness :
    (("alice" : String).pystrip = "alice" ∧ 3 ≤ ("alice" : String).length ∧
      6 ≤ ("secret77" : String).length) ∧
    (((register emptyState "alice" "secret77").1
        = ⟨false, "Username already exists"⟩ ↔
      ∃ a ∈ emptyState.accounts, a.username.pylower = ("alice" : String).pylower) ∧
    ((¬ ∃ a ∈ emptyState.accounts, a.username.pylower = ("alice" : String).pylower) →
      ((register emptyState "alice" "secret77").2).accounts
          = emptyState.accounts ++ [registeredAccount emptyState "alice" "secret77"] ∧
      ((register emptyState "alice" "secret77").2).settingsCol
          = emptyState.settingsCol ++ [defaultSettings "alice"] ∧
      ((register emptyState "alice" "secret77").2).friendsCol
          = emptyState.friendsCol ++ [emptyFriendDoc "alice"] ∧
      ((register emptyState "alice" "secret77").2).notifsCol
          = emptyState.notifsCol ++ [welcomeNotification emptyState "alice"] ∧
      (register emptyState "alice" "secret77").1
          = ⟨true, "Account created successfully"⟩)) :=
  ⟨by decide, register_spec emptyState "alice" "secret77"
    (by decide) (by decide) (by decide)⟩

/-- C6: with non-empty trimmed inputs, `decline_friend_request` removes
the sender from the pending_received list of the receiver and the
receiver from the pending_sent list of the sender, leaves every friends
list and every other document and store unchanged, and reports success
even when no such pending request exists. -/
theorem decline_friend_request_spec (s : State) (receiver sender : String)
    (hrt : receiver.pystrip = receiver) (hst : sender.pystrip = sender)
    (hr : receiver ≠ "") (hs : sender ≠ "") :
    (decline_friend_request s receiver sender).1
        = ⟨true, "Friend request declined"⟩ ∧
    pendingReceivedOf (decline_friend_request s receiver sender).2 receiver
        = pull (pendingReceivedOf s receiver) sender ∧
    pendingSentOf (decline_friend_request s receiver sender).2 sender
        = pull (pendingSentOf s sender) receiver ∧
    (∀ u, friendsOf (decline_friend_request s receiver sender).2 u
        = friendsOf s u) ∧
    (∀ u, u ≠ receiver → u ≠ sender →
      findDoc ((decline_friend_request s receiver sender).2).friendsCol u
          = findDoc s.friendsCol u) ∧
    ((decline_friend_request s receiver sender).2).accounts = s.accounts ∧
    ((decline_friend_request s receiver sender).2).settingsCol = s.settingsCol ∧
    ((decline_friend_request s receiver sender).2).notifsCol = s.notifsCol ∧
    ((decline_friend_request s receiver sender).2).messages = s.messages := by
  obtain ⟨vf, vpr, vps⟩ := decline_views s.friendsCol receiver sender
  simp only [decline_friend_request, hrt, hst]
  rw [if_neg (not_or.mpr ⟨hr, hs⟩)]
  refine ⟨rfl, ?_, ?_, ?_, ?_, rfl, rfl, rfl, rfl⟩
  · show prCol (declinePendCol s.friendsCol receiver sender) receiver = _
    rw [vpr, if_pos rfl]
    rfl
  · show psCol (declinePendCol s.friendsCol receiver sender) sender = _
    rw [vps, if_pos rfl]
    rfl
  · intro u
    show fCol (declinePendCol s.friendsCol receiver sender) u = _
    rw [vf]
    rfl
  · intro u h1 h2
    show findDoc (declinePendCol s.friendsCol receiver sender) u = _
    unfold declinePendCol
    rw [findDoc_update_one _ _ _ (pullPS receiver) (fun d => rfl), if_neg h2,
      findDoc_update_one _ _ _ (pullPR sender) (fun d => rfl), if_neg h1]

/-- A concrete store for the witnesses: bob has a pending request from
alice. -/
def wsDecline : State :=
  { emptyState with friendsCol :=
      [⟨"bob", [], [], ["alice"]⟩, ⟨"alice", [], ["bob"], []⟩] }

/-- Witness for C6 at a concrete input. -/
theorem decline_friend_request_spec_witness :
    (("bob" : String).pystrip = "bob" ∧ ("alice" : String).pystrip = "alice" ∧
      ("bob" : String) ≠ "" ∧ ("alice" : String) ≠ "") ∧
    (decline_friend_request wsDecline "bob" "alice").1
        = ⟨true, "Friend request declined"⟩ ∧
    pendingReceivedOf (decline_friend_request wsDecline "bob" "alice").2 "bob"
        = pull (pendingReceivedOf wsDecline "bob") "alice" ∧
    pendingSentOf (decline_friend_request wsDecline "bob" "alice").2 "alice"
        = pull (pendingSentOf wsDecline "alice") "bob" :=
  ⟨by decide,
    (decline_friend_request_spec wsDecline "bob" "alice"
      (by decide) (by decide) (by decide) (by decide)).1,
    (decline_friend_request_spec wsDecline "bob" "alice"
      (by decide) (by decide) (by decide) (by decide)).2.1,
    (decline_friend_request_spec wsDecline "bob" "alice"
      (by decide) (by decide) (by decide) (by decide)).2.2.1⟩

theorem ShadowEmptyF_of_nodup {l : List FriendDoc}
    (h : (l.map FriendDoc.username).Nodup) : ShadowEmptyF l := by
  induction l with
  | nil => trivial
  | cons d rest ih =>
    rw [List.map_cons, List.nodup_cons] at h
    refine ⟨?_, ih h.2⟩
    intro e he heq
    exact absurd (heq ▸ List.mem_map_of_mem FriendDoc.username he) h.1

theorem addToSet_idem (l : List String) (x : String) :
    addToSet (addToSet l x) x = addToSet l x := by
  unfold addToSet
  by_cases h : x ∈ l
  · rw [if_pos h, if_pos h]
  · rw [if_neg h, if_pos (by simp)]

/-- The notification `accept_friend_request` creates for the sender. -/
def acceptedNotifForSender (s : State) (receiver sender : String) : Notification :=
  { id := s.nextId, username := sender, ntype := "friend_accepted",
    title := "Friend Request Accepted!",
    message := receiver ++ " accepted your friend request",
    data := [("friend", receiver)], read := false, created_at := s.clock }

/-- The notification `accept_friend_request` creates for the receiver. -/
def acceptedNotifForReceiver (s : State) (receiver sender : String) : Notification :=
  { id := s.nextId + 1, username := receiver, ntype := "friend_accepted",
    title := "New Friend Added!",
    message := "You are now friends with " ++ sender,
    data := [("friend", sender)], read := false, created_at := s.clock + 1 }

/-- C5: with non-empty trimmed inputs and one friends document per
username, `accept_friend_request` fails with `Friend request not found`,
leaving the whole state untouched, exactly when the friends document of
the receiver does not list the sender in `pending_received`; on success
both friends-list updates are applied to the store and the two
`friend_accepted` notifications are appended after them. -/
theorem accept_friend_request_spec (s : State) (receiver sender : String)
    (hrt : receiver.pystrip = receiver) (hst : sender.pystrip = sender)
    (hr : receiver ≠ "") (hs : sender ≠ "")
    (hud : (s.friendsCol.map FriendDoc.username).Nodup) :
    (((accept_friend_request s receiver sender).1
          = ⟨false, "Friend request not found"⟩ ∧
        (accept_friend_request s receiver sender).2 = s)
      ↔ sender ∉ pendingReceivedOf s receiver) ∧
    (sender ∈ pendingReceivedOf s receiver →
      friendsOf (accept_friend_request s receiver sender).2 receiver
          = addToSet (friendsOf s receiver) sender ∧
      pendingReceivedOf (accept_friend_request s receiver sender).2 receiver
          = pull (pendingReceivedOf s receiver) sender ∧
      ((findDoc s.friendsCol sender).isSome →
        friendsOf (accept_friend_request s receiver sender).2 sender
            = addToSet (friendsOf s sender) receiver ∧
        pendingSentOf (accept_friend_request s receiver sender).2 sender
            = pull (pendingSentOf s sender) receiver) ∧
      ((accept_friend_request s receiver sender).2).notifsCol
          = s.notifsCol ++ [acceptedNotifForSender s receiver sender,
              acceptedNotifForReceiver s receiver sender] ∧
      (accept_friend_request s receiver sender).1
          = ⟨true, "You are now friends with " ++ sender⟩) := by
  have hsh : ShadowEmptyF s.friendsCol := ShadowEmptyF_of_nodup hud
  simp only [accept_friend_request, hrt, hst]
  rw [if_neg (not_or.mpr ⟨hr, hs⟩)]
  cases hfind : find_first
      (fun d => d.username = receiver ∧ sender ∈ d.pending_received)
      s.friendsCol with
  | none =>
    have hnot : sender ∉ pendingReceivedOf s receiver :=
      (find_combined_none_iff hsh).mp hfind
    exact ⟨⟨fun _ => hnot, fun _ => ⟨rfl, rfl⟩⟩, fun hmem => absurd hmem hnot⟩
  | some d0 =>
    have hmem0 : sender ∈ pendingReceivedOf s receiver :=
      mem_prCol_of_find_combined hsh hfind
    have hdr := isSome_of_mem_prCol hmem0
    obtain ⟨dr, hdrv⟩ := Option.isSome_iff_exists.mp hdr
    have hfr : friendsOf s receiver = dr.friends := by
      unfold friendsOf fCol
      rw [hdrv]
      rfl
    have hprr : pendingReceivedOf s receiver = dr.pending_received := by
      unfold pendingReceivedOf prCol
      rw [hdrv]
      rfl
    constructor
    · constructor
      · rintro ⟨h1, _⟩
        exact Bool.noConfusion (congrArg Resp.success h1)
      · intro hn
        exact absurd hmem0 hn
    · intro _
      by_cases hrs : receiver = sender
      · subst hrs
        obtain ⟨vf, vps, vpr⟩ := befriend_self_views s.friendsCol receiver dr hdrv
        have hfsr : friendsOf s receiver = dr.friends := hfr
        refine ⟨?_, ?_, ?_, List.append_assoc _ _ _, rfl⟩
        · show fCol (befriendCol s.friendsCol receiver receiver) receiver = _
          rw [vf, if_pos rfl, addToSet_idem]
          rfl
        · show prCol (befriendCol s.friendsCol receiver receiver) receiver = _
          rw [vpr, if_pos rfl]
          rfl
        · intro _
          constructor
          · show fCol (befriendCol s.friendsCol receiver receiver) receiver = _
            rw [vf, if_pos rfl, addToSet_idem]
            rfl
          · show psCol (befriendCol s.friendsCol receiver receiver) receiver = _
            rw [vps, if_pos rfl]
            rfl
      · have hsr : ¬ sender = receiver := fun h => hrs h.symm
        have h1 : ∀ y, findDoc
            (update_one s.friendsCol receiver (addFriendPullPR sender)) y
              = if y = receiver
                then (findDoc s.friendsCol receiver).map (addFriendPullPR sender)
                else findDoc s.friendsCol y :=
          fun y => findDoc_update_one _ _ _ _ (fun d => rfl)
        have hfd : ∀ y, findDoc (befriendCol s.friendsCol receiver sender) y
            = if y = sender
              then (findDoc s.friendsCol sender).map (addFriendPullPS receiver)
              else if y = receiver
                then (findDoc s.friendsCol receiver).map (addFriendPullPR sender)
                else findDoc s.friendsCol y := by
          intro y
          unfold befriendCol
          rw [findDoc_update_one _ _ _ (addFriendPullPS receiver) (fun d => rfl),
            h1 sender, h1 y]
          rw [if_neg hsr]
        refine ⟨?_, ?_, ?_, List.append_assoc _ _ _, rfl⟩
        · show fCol (befriendCol s.friendsCol receiver sender) receiver = _
          unfold fCol
          rw [hfd receiver, if_neg hrs, if_pos rfl, hdrv, hfr]
          rfl
        · show prCol (befriendCol s.friendsCol receiver sender) receiver = _
          unfold prCol
          rw [hfd receiver, if_neg hrs, if_pos rfl, hdrv, hprr]
          rfl
        · intro hds
          obtain ⟨ds, hdsv⟩ := Option.isSome_iff_exists.mp hds
          have hfs : friendsOf s sender = ds.friends := by
            unfold friendsOf fCol
            rw [hdsv]
            rfl
          have hpss : pendingSentOf s sender = ds.pending_sent := by
            unfold pendingSentOf psCol
            rw [hdsv]
            rfl
          constructor
          · show fCol (befriendCol s.friendsCol receiver sender) sender = _
            unfold fCol
            rw [hfd sender, if_pos rfl, hdsv, hfs]
            rfl
          · show psCol (befriendCol s.friendsCol receiver sender) sender = _
            unfold psCol
            rw [hfd sender, if_pos rfl, hdsv, hpss]
            rfl

/-- A concrete store for the C5 witness: bob has a pending request from
alice, with matching documents for both. -/
def wsAccept : State :=
  { emptyState with friendsCol :=
      [⟨"bob", [], [], ["alice"]⟩, ⟨"alice", [], ["bob"], []⟩] }

/-- Witness for C5 at a concrete input. -/
theorem accept_friend_request_spec_witness :
    (("bob" : String).pystrip = "bob" ∧ ("alice" : String).pystrip = "alice" ∧
      ("bob" : String) ≠ "" ∧ ("alice" : String) ≠ "" ∧
      (wsAccept.friendsCol.map FriendDoc.username).Nodup ∧
      ("alice" : String) ∈ pendingReceivedOf wsAccept "bob") ∧
    (((accept_friend_request wsAccept "bob" "alice").1
          = ⟨false, "Friend request not found"⟩ ∧
        (accept_friend_request wsAccept "bob" "alice").2 = wsAccept)
      ↔ ("alice" : String) ∉ pendingReceivedOf wsAccept "bob") ∧
    friendsOf (accept_friend_request wsAccept "bob" "alice").2 "bob"
        = addToSet (friendsOf wsAccept "bob") "alice" ∧
    ((accept_friend_request wsAccept "bob" "alice").2).notifsCol
        = wsAccept.notifsCol ++ [acceptedNotifForSender wsAccept "bob" "alice",
            acceptedNotifForReceiver wsAccept "bob" "alice"] :=
  ⟨by decide,
    (accept_friend_request_spec wsAccept "bob" "alice"
      (by decide) (by decide) (by decide) (by decide) (by decide)).1,
    ((accept_friend_request_spec wsAccept "bob" "alice"
      (by decide) (by decide) (by decide) (by decide) (by decide)).2 (by decide)).1,
    ((accept_friend_request_spec wsAccept "bob" "alice"
      (by decide) (by decide) (by decide) (by decide) (by decide)).2
        (by decide)).2.2.2.1⟩

/-- The auto-accept notification for the sender (lines 467-473). -/
def autoAcceptNotifForSender (s : State) (sender receiver : String) : Notification :=
  { id := s.nextId, username := sender, ntype := "friend_accepted",
    title := "Friend Request Accepted!",
    message := "You are now friends with " ++ receiver,
    data := [("friend", receiver)], read := false, created_at := s.clock }

/-- The auto-accept notification for the receiver (lines 474-480). -/
def autoAcceptNotifForReceiver (s : State) (sender receiver : String) : Notification :=
  { id := s.nextId + 1, username := receiver, ntype := "friend_accepted",
    title := "Friend Request Accepted!",
    message := "You are now friends with " ++ sender,
    data := [("friend", sender)], read := false, created_at := s.clock + 1 }

/-- C2: when the sender already sits in the pending_sent list of the
receiver (a crossed request), `send_friend_request` auto-accepts: both
users land in the friends list of the other, the crossed pending pair is
removed, no new pending entry is created, a `friend_accepted`
notification is stored for each of them, and the call reports that they
are now friends. -/
theorem send_friend_request_auto_accept (s : State) (sender receiver : String)
    (acc : Account)
    (hst : sender.pystrip = sender) (hrt : receiver.pystrip = receiver)
    (hs : sender ≠ "") (hr : receiver ≠ "")
    (hlow : ¬ sender.pylower = receiver.pylower)
    (hacc : find_first (fun a => a.username.pylower = receiver.pylower)
        s.accounts = some acc)
    (haccname : acc.username = receiver)
    (hnf : receiver ∉ friendsOf s sender)
    (hns : receiver ∉ pendingSentOf s sender)
    (hcross : sender ∈ pendingSentOf s receiver) :
    (send_friend_request s sender receiver).1
        = ⟨true, "Friend request accepted! You are now friends with " ++ receiver⟩ ∧
    receiver ∈ friendsOf (send_friend_request s sender receiver).2 sender ∧
    sender ∈ friendsOf (send_friend_request s sender receiver).2 receiver ∧
    pendingReceivedOf (send_friend_request s sender receiver).2 sender
        = pull (pendingReceivedOf s sender) receiver ∧
    pendingSentOf (send_friend_request s sender receiver).2 receiver
        = pull (pendingSentOf s receiver) sender ∧
    pendingSentOf (send_friend_request s sender receiver).2 sender
        = pendingSentOf s sender ∧
    pendingReceivedOf (send_friend_request s sender receiver).2 receiver
        = pendingReceivedOf s receiver ∧
    ((send_friend_request s sender receiver).2).notifsCol
        = s.notifsCol ++ [autoAcceptNotifForSender s sender receiver,
            autoAcceptNotifForReceiver s sender receiver] := by
  have hne : sender ≠ receiver := by
    intro heq
    exact hlow (by rw [heq])
  have hner : ¬ receiver = sender := fun h => hne h.symm
  simp only [send_friend_request, hst, hrt]
  rw [if_neg (not_or.mpr ⟨hs, hr⟩), if_neg hlow]
  simp only [hacc, haccname]
  have hnf2 : receiver ∉ fCol s.friendsCol sender := hnf
  have hns2 : receiver ∉ psCol s.friendsCol sender := hns
  rw [docOr_friends, docOr_ps, docOr_ps,
    if_neg hnf2, if_neg hns2,
    if_pos (show sender ∈ psCol (ensureDoc s.friendsCol sender) receiver from
      ((accessors_ensureDoc s.friendsCol sender receiver).2.1).symm ▸ hcross)]
  have hdocS : findDoc (ensureDoc (ensureDoc s.friendsCol sender) receiver) sender
      = some (docOr s.friendsCol sender) := by
    rw [findDoc_ensureDoc, if_neg hne, findDoc_ensureDoc, if_pos rfl]
  have hdocR : findDoc (ensureDoc (ensureDoc s.friendsCol sender) receiver) receiver
      = some (docOr (ensureDoc s.friendsCol sender) receiver) := by
    rw [findDoc_ensureDoc, if_pos rfl]
  obtain ⟨vf, vps, vpr⟩ := befriend_views
    (ensureDoc (ensureDoc s.friendsCol sender) receiver) sender receiver
    (docOr s.friendsCol sender) (docOr (ensureDoc s.friendsCol sender) receiver)
    hdocS hdocR hne
  have hps2 : ∀ x,
      psCol (ensureDoc (ensureDoc s.friendsCol sender) receiver) x
        = psCol s.friendsCol x := fun x =>
    ((accessors_ensureDoc (ensureDoc s.friendsCol sender) receiver x).2.1).trans
      ((accessors_ensureDoc s.friendsCol sender x).2.1)
  have hpr2 : ∀ x,
      prCol (ensureDoc (ensureDoc s.friendsCol sender) receiver) x
        = prCol s.friendsCol x := fun x =>
    ((accessors_ensureDoc (ensureDoc s.friendsCol sender) receiver x).2.2).trans
      ((accessors_ensureDoc s.friendsCol sender x).2.2)
  refine ⟨rfl, ?_, ?_, ?_, ?_, ?_, ?_, List.append_assoc _ _ _⟩
  · show receiver ∈ fCol (befriendCol
      (ensureDoc (ensureDoc s.friendsCol sender) receiver) sender receiver) sender
    rw [vf, if_pos rfl]
    exact mem_addToSet.mpr (Or.inr rfl)
  · show sender ∈ fCol (befriendCol
      (ensureDoc (ensureDoc s.friendsCol sender) receiver) sender receiver) receiver
    rw [vf, if_neg hner, if_pos rfl]
    exact mem_addToSet.mpr (Or.inr rfl)
  · show prCol (befriendCol
      (ensureDoc (ensureDoc s.friendsCol sender) receiver) sender receiver) sender = _
    rw [vpr, if_pos rfl, hpr2]
    rfl
  · show psCol (befriendCol
      (ensureDoc (ensureDoc s.friendsCol sender) receiver) sender receiver) receiver = _
    rw [vps, if_pos rfl, hps2]
    rfl
  · show psCol (befriendCol
      (ensureDoc (ensureDoc s.friendsCol sender) receiver) sender receiver) sender = _
    rw [vps, if_neg hne, hps2]
    rfl
  · show prCol (befriendCol
      (ensureDoc (ensureDoc s.friendsCol sender) receiver) sender receiver) receiver = _
    rw [vpr, if_neg hner, hpr2]
    rfl

/-- A concrete store for the C2 witness: the account Bob exists and Bob
already sent a request to alice. -/
def wsCross : State :=
  { emptyState with
    accounts := [⟨"Bob", "h", 0, "", "offline", 0⟩],
    friendsCol := [⟨"alice", [], [], ["Bob"]⟩, ⟨"Bob", [], ["alice"], []⟩] }

/-- Witness for C2 at a concrete input. -/
theorem send_friend_request_auto_accept_witness :
    (("alice" : String).pystrip = "alice" ∧ ("Bob" : String).pystrip = "Bob" ∧
      ("alice" : String) ≠ "" ∧ ("Bob" : String) ≠ "" ∧
      ¬ ("alice" : String).pylower = ("Bob" : String).pylower ∧
      find_first (fun a => a.username.pylower = ("Bob" : String).pylower)
          wsCross.accounts = some ⟨"Bob", "h", 0, "", "offline", 0⟩ ∧
      (⟨"Bob", "h", 0, "", "offline", 0⟩ : Account).username = "Bob" ∧
      ("Bob" : String) ∉ friendsOf wsCross "alice" ∧
      ("Bob" : String) ∉ pendingSentOf wsCross "alice" ∧
      ("alice" : String) ∈ pendingSentOf wsCross "Bob") ∧
    (send_friend_request wsCross "alice" "Bob").1
        = ⟨true, "Friend request accepted! You are now friends with " ++ "Bob"⟩ ∧
    ("Bob" : String) ∈ friendsOf (send_friend_request wsCross "alice" "Bob").2 "alice" ∧
    ("alice" : String) ∈ friendsOf (send_friend_request wsCross "alice" "Bob").2 "Bob" ∧
    pendingSentOf (send_friend_request wsCross "alice" "Bob").2 "Bob"
        = pull (pendingSentOf wsCross "Bob") "alice" ∧
    ((send_friend_request wsCross "alice" "Bob").2).notifsCol
        = wsCross.notifsCol ++ [autoAcceptNotifForSender wsCross "alice" "Bob",
            autoAcceptNotifForReceiver wsCross "alice" "Bob"] :=
  ⟨by decide,
    (send_friend_request_auto_accept wsCross "alice" "Bob"
      ⟨"Bob", "h", 0, "", "offline", 0⟩ (by decide) (by decide) (by decide)
      (by decide) (by decide) (by decide) (by decide) (by decide) (by decide)
      (by decide)).1,
    (send_friend_request_auto_accept wsCross "alice" "Bob"
      ⟨"Bob", "h", 0, "", "offline", 0⟩ (by decide) (by decide) (by decide)
      (by decide) (by decide) (by decide) (by decide) (by decide) (by decide)
      (by decide)).2.1,
    (send_friend_request_auto_accept wsCross "alice" "Bob"
      ⟨"Bob", "h", 0, "", "offline", 0⟩ (by decide) (by decide) (by decide)
      (by decide) (by decide) (by decide) (by decide) (by decide) (by decide)
      (by decide)).2.2.1,
    (send_friend_request_auto_accept wsCross "alice" "Bob"
      ⟨"Bob", "h", 0, "", "offline", 0⟩ (by decide) (by decide) (by decide)
      (by decide) (by decide) (by decide) (by decide) (by decide) (by decide)
      (by decide)).2.2.2.2.1,
    (send_friend_request_auto_accept wsCross "alice" "Bob"
      ⟨"Bob", "h", 0, "", "offline", 0⟩ (by decide) (by decide) (by decide)
      (by decide) (by decide) (by decide) (by decide) (by decide) (by decide)
      (by decide)).2.2.2.2.2.2.2⟩

/-- Two notifications of one store with the same id are the same document
when the ids are pairwise distinct. -/
theorem notif_id_unique {l : List Notification}
    (h : (l.map Notification.id).Nodup) {a b : Notification}
    (ha : a ∈ l) (hb : b ∈ l) (hid : a.id = b.id) : a = b :=
  List.inj_on_of_nodup_map h ha hb hid

/-- C10: with a non-empty trimmed username and pairwise distinct
notification ids, `mark_notification_read` succeeds exactly when the
store holds a notification with the given id, owned by the user and
still unread; in every failure case, including an already-read
notification, the response message is the same
`Notification not found or already read`. -/
theorem mark_notification_read_spec (s : State) (nid : Nat) (username : String)
    (hut : username.pystrip = username) (hu : username ≠ "")
    (hids : (s.notifsCol.map Notification.id).Nodup) :
    ((mark_notification_read s nid username).1.success = true ↔
      ∃ n ∈ s.notifsCol, n.id = nid ∧ n.username = username ∧ n.read = false) ∧
    ((mark_notification_read s nid username).1.success = false →
      (mark_notification_read s nid username).1.message
          = "Notification not found or already read") := by
  simp only [mark_notification_read, hut]
  rw [if_neg hu]
  cases hf : find_first (fun n => n.id = nid ∧ n.username = username)
      s.notifsCol with
  | none =>
    constructor
    · constructor
      · intro h
        exact Bool.noConfusion h
      · rintro ⟨n, hn, h1, h2, _⟩
        have := find_first_isSome_of_mem
          (p := fun n => n.id = nid ∧ n.username = username) hn ⟨h1, h2⟩
        rw [hf] at this
        exact Bool.noConfusion this
    · intro _
      rfl
  | some n0 =>
    obtain ⟨hn0, hp0⟩ := find_first_mem hf
    by_cases hread : n0.read
    · rw [if_neg (by simp [hread])]
      constructor
      · constructor
        · intro h
          exact Bool.noConfusion h
        · rintro ⟨n, hn, h1, h2, h3⟩
          have heq : n = n0 := notif_id_unique hids hn hn0 (h1.trans hp0.1.symm)
          rw [heq] at h3
          exact absurd h3 (by simp [hread])
      · intro _
        rfl
    · rw [if_pos (by simp [hread])]
      constructor
      · constructor
        · intro _
          exact ⟨n0, hn0, hp0.1, hp0.2, by simpa using hread⟩
        · intro _
          rfl
      · intro h
        exact Bool.noConfusion h

/-- A concrete store for the C10 witness: one unread notification. -/
def wsNotif : State :=
  { emptyState with notifsCol := [⟨0, "alice", "welcome", "t", "m", [], false, 0⟩] }

/-- Witness for C10 at a concrete input. -/
theorem mark_notification_read_spec_witness :
    (("alice" : String).pystrip = "alice" ∧ ("alice" : String) ≠ "" ∧
      (wsNotif.notifsCol.map Notification.id).Nodup) ∧
    ((mark_notification_read wsNotif 0 "alice").1.success = true ↔
      ∃ n ∈ wsNotif.notifsCol, n.id = 0 ∧ n.username = "alice" ∧ n.read = false) ∧
    ((mark_notification_read wsNotif 0 "alice").1.success = false →
      (mark_notification_read wsNotif 0 "alice").1.message
          = "Notification not found or already read") :=
  ⟨by decide,
    (mark_notification_read_spec wsNotif 0 "alice"
      (by decide) (by decide) (by decide)).1,
    (mark_notification_read_spec wsNotif 0 "alice"
      (by decide) (by decide) (by decide)).2⟩

/-! ## The message cap and the notification fanout -/

theorem filterp_congr {α : Type} {p q : α → Prop} [DecidablePred p]
    [DecidablePred q] {l : List α} (h : ∀ a ∈ l, (p a ↔ q a)) :
    filterp p l = filterp q l := by
  induction l with
  | nil => rfl
  | cons a l ih =>
    have ha := h a (List.mem_cons_self _ _)
    have hrest := ih (fun b hb => h b (List.mem_cons_of_mem _ hb))
    by_cases hp : p a
    · rw [filterp, if_pos hp, filterp, if_pos (ha.mp hp), hrest]
    · rw [filterp, if_neg hp, filterp, if_neg (fun hq => hp (ha.mpr hq)), hrest]

/-- Deleting, from the whole collection, the ids of the first `k`
messages of one channel removes exactly those messages: the channel keeps
its suffix and every other message survives. -/
theorem cap_delete_lemma (L : List Message) (C : Message → Prop)
    [DecidablePred C] (k : Nat) (hnd : (L.map Message.id).Nodup) :
    filterp C (filterp (fun m =>
        m.id ∉ ((filterp C L).take k).map Message.id) L)
      = (filterp C L).drop k ∧
    (∀ (Cq : Message → Prop), ∀ (_ : DecidablePred Cq),
      (∀ m, Cq m → ¬ C m) →
      filterp Cq (filterp (fun m =>
          m.id ∉ ((filterp C L).take k).map Message.id) L)
        = filterp Cq L) := by
  have hchsub : (filterp C L).Sublist L := filterp_sublist L
  have hndch : ((filterp C L).map Message.id).Nodup :=
    (hchsub.map Message.id).nodup hnd
  have hchnd : (filterp C L).Nodup := List.Nodup.of_map _ hndch
  have hdisj : List.Disjoint ((filterp C L).take k) ((filterp C L).drop k) := by
    have := (List.take_append_drop k (filterp C L)).symm ▸ hchnd
    exact List.disjoint_of_nodup_append this
  constructor
  · rw [filterp_filterp, filterp_congr
      (q := fun m => C m ∧ m.id ∉ ((filterp C L).take k).map Message.id)
      (fun a _ => and_comm), ← filterp_filterp]
    have hsplit := List.take_append_drop k (filterp C L)
    calc filterp (fun m => m.id ∉ ((filterp C L).take k).map Message.id)
          (filterp C L)
        = filterp (fun m => m.id ∉ ((filterp C L).take k).map Message.id)
            ((filterp C L).take k ++ (filterp C L).drop k) := by rw [hsplit]
      _ = (filterp C L).drop k := by
          rw [filterp_append, filterp_eq_nil, filterp_eq_self, List.nil_append]
          · intro m hm hin
            obtain ⟨m', hm', hid⟩ := List.mem_map.mp hin
            have hmL : m ∈ L := hchsub.mem (List.mem_of_mem_drop hm)
            have hm'L : m' ∈ L := hchsub.mem (List.mem_of_mem_take hm')
            have : m' = m := List.inj_on_of_nodup_map hnd hm'L hmL hid
            rw [this] at hm'
            exact hdisj hm' hm
          · intro m hm hin
            exact hin (List.mem_map_of_mem Message.id hm)
  · intro Cq _ hCq
    rw [filterp_filterp]
    refine filterp_congr ?_
    intro m hmL
    constructor
    · rintro ⟨_, h2⟩
      exact h2
    · intro hq
      refine ⟨?_, hq⟩
      intro hin
      obtain ⟨m', hm', hid⟩ := List.mem_map.mp hin
      have hm'ch : m' ∈ filterp C L := List.mem_of_mem_take hm'
      have hm'L : m' ∈ L := hchsub.mem hm'ch
      have : m' = m := List.inj_on_of_nodup_map hnd hm'L hmL hid
      rw [this] at hm'ch
      exact hCq m hq (mem_filterp.mp hm'ch).2

/-- The observable quadruple of a stored notification: owner, type,
title, body. -/
def notifView (n : Notification) : String × String × String × String :=
  (n.username, n.ntype, n.title, n.message)

/-- The notifications the fanout loop is expected to create, one per
friend whose settings document exists and has `message_notifications`
enabled (the `doc.get` default applies). -/
def fanoutView (settings : List SettingsDoc) (username message : String) :
    List String → List (String × String × String × String)
  | [] => []
  | friend :: rest =>
    (match find_first (fun st => st.username = friend) settings with
      | some st =>
        if st.message_notifications.getD true
        then [(friend, "message", "New message from " ++ username,
          truncate100 message)]
        else []
      | none => []) ++ fanoutView settings username message rest

theorem notify_friend_step_state (username message channel : String)
    (t : State) (friend : String) :
    (notify_friend_step username message channel t friend).settingsCol
        = t.settingsCol ∧
    (notify_friend_step username message channel t friend).activeUsers
        = t.activeUsers ∧
    (notify_friend_step username message channel t friend).messages
        = t.messages := by
  unfold notify_friend_step
  cases find_first (fun st => st.username = friend) t.settingsCol with
  | none => exact ⟨rfl, rfl, rfl⟩
  | some st =>
    dsimp only
    by_cases hen : st.message_notifications.getD true
    · rw [if_pos hen]
      by_cases hc : friend ∉ t.activeUsers ∨ friend ≠ username
      · rw [if_pos hc]
        exact ⟨rfl, rfl, rfl⟩
      · rw [if_neg hc]
        exact ⟨rfl, rfl, rfl⟩
    · rw [if_neg hen]
      exact ⟨rfl, rfl, rfl⟩

theorem notify_friends_state (username message channel : String) :
    ∀ (fs : List String) (t : State),
      (notify_friends username message channel t fs).settingsCol
          = t.settingsCol ∧
      (notify_friends username message channel t fs).activeUsers
          = t.activeUsers ∧
      (notify_friends username message channel t fs).messages
          = t.messages := by
  intro fs
  induction fs with
  | nil => intro t; exact ⟨rfl, rfl, rfl⟩
  | cons f rest ih =>
    intro t
    obtain ⟨s1, s2, s3⟩ :=
      notify_friend_step_state username message channel t f
    obtain ⟨i1, i2, i3⟩ :=
      ih (notify_friend_step username message channel t f)
    exact ⟨i1.trans s1, i2.trans s2, i3.trans s3⟩

theorem notify_friend_step_notifs (username message channel : String)
    (t : State) (friend : String) (hf : friend ≠ username) :
    (notify_friend_step username message channel t friend).notifsCol.map notifView
      = t.notifsCol.map notifView
        ++ (match find_first (fun st => st.username = friend) t.settingsCol with
          | some st =>
            if st.message_notifications.getD true
            then [(friend, "message", "New message from " ++ username,
              truncate100 message)]
            else []
          | none => []) := by
  unfold notify_friend_step
  cases find_first (fun st => st.username = friend) t.settingsCol with
  | none => simp
  | some st =>
    dsimp only
    by_cases hen : st.message_notifications.getD true
    · rw [if_pos hen, if_pos (Or.inr hf)]
      simp [create_notification, notifView, hen, truncate100]
    · rw [if_neg hen]
      simp [hen]

theorem notify_friends_notifs (username message channel : String) :
    ∀ (fs : List String) (t : State), (∀ f ∈ fs, f ≠ username) →
      (notify_friends username message channel t fs).notifsCol.map notifView
        = t.notifsCol.map notifView
          ++ fanoutView t.settingsCol username message fs := by
  intro fs
  induction fs with
  | nil =>
    intro t _
    simp [notify_friends, fanoutView]
  | cons f rest ih =>
    intro t h
    have hf : f ≠ username := h f (List.mem_cons_self _ _)
    have hstep := notify_friend_step_notifs username message channel t f hf
    obtain ⟨hset, _, _⟩ := notify_friend_step_state username message channel t f
    have hrec := ih (notify_friend_step username message channel t f)
      (fun g hg => h g (List.mem_cons_of_mem _ hg))
    show (notify_friends username message channel
      (notify_friend_step username message channel t f) rest).notifsCol.map notifView = _
    rw [hrec, hstep, hset, fanoutView, List.append_assoc]

theorem cap_stage_other (channel : String) (t : State) :
    (cap_stage channel t).notifsCol = t.notifsCol ∧
    (cap_stage channel t).settingsCol = t.settingsCol ∧
    (cap_stage channel t).friendsCol = t.friendsCol ∧
    (cap_stage channel t).activeUsers = t.activeUsers := by
  simp only [cap_stage]
  split
  · exact ⟨rfl, rfl, rfl, rfl⟩
  · exact ⟨rfl, rfl, rfl, rfl⟩

theorem cap_stage_messages (channel : String) (t : State)
    (hnd : (t.messages.map Message.id).Nodup) :
    filterp (fun m => m.channel = channel) (cap_stage channel t).messages
        = takeLast 100 (filterp (fun m => m.channel = channel) t.messages) ∧
    (∀ c, c ≠ channel →
      filterp (fun m => m.channel = c) (cap_stage channel t).messages
          = filterp (fun m => m.channel = c) t.messages) := by
  simp only [cap_stage]
  split
  · rename_i hlong
    obtain ⟨h1, h2⟩ := cap_delete_lemma t.messages (fun m => m.channel = channel)
      ((filterp (fun m => m.channel = channel) t.messages).length - 100) hnd
    constructor
    · exact h1
    · intro c hc
      refine h2 (fun m => m.channel = c) inferInstance ?_
      intro m hm
      rw [hm]
      exact hc
  · rename_i hshort
    constructor
    · rw [takeLast_eq_self (by omega)]
    · intro c _
      rfl

theorem fanout_stage_messages (username message channel : String) (t : State) :
    (fanout_stage username message channel t).messages = t.messages := by
  unfold fanout_stage
  cases findDoc t.friendsCol username with
  | none => rfl
  | some fd =>
    exact (notify_friends_state username message channel fd.friends t).2.2

theorem fanout_stage_notifs (username message channel : String) (t : State)
    (hself : username ∉ fCol t.friendsCol username) :
    (fanout_stage username message channel t).notifsCol.map notifView
      = t.notifsCol.map notifView
        ++ fanoutView t.settingsCol username message (fCol t.friendsCol username) := by
  unfold fanout_stage
  cases hfd : findDoc t.friendsCol username with
  | none =>
    have : fCol t.friendsCol username = [] := by
      unfold fCol
      rw [hfd]
      rfl
    rw [this]
    simp [fanoutView]
  | some fd =>
    have hfr : fCol t.friendsCol username = fd.friends := by
      unfold fCol
      rw [hfd]
      rfl
    rw [hfr] at hself ⊢
    exact notify_friends_notifs username message channel fd.friends t
      (fun f hf heq => hself (heq ▸ hf))

theorem filterp_singleton_pos {α : Type} {p : α → Prop} [DecidablePred p]
    {a : α} (h : p a) : filterp p [a] = [a] := by
  simp [filterp, h]

theorem filterp_singleton_neg {α : Type} {p : α → Prop} [DecidablePred p]
    {a : α} (h : ¬ p a) : filterp p [a] = [] := by
  simp [filterp, h]

/-- The message document `send_message` inserts. -/
def sentMessage (s : State) (username message channel : String) : Message :=
  { id := s.nextId, username := username, message := message,
    timestamp := s.clock, channel := channel,
    profile_picture :=
      match find_first (fun a => a.username.pylower = username.pylower)
          s.accounts with
      | some u => u.profile_picture
      | none => "" }

/-- C3: after a successful `send_message`, the target channel stores
exactly the 100 newest of its messages including the new one, in
insertion order (so at most 100 and the deleted ones are the oldest),
and the messages of every other channel are untouched.  The id
hypotheses state the uniqueness MongoDB guarantees for `_id`. -/
theorem send_message_cap (s : State) (username message channel : String)
    (hut : username.pystrip = username) (hmt : message.pystrip = message)
    (hu : username ≠ "") (hm : message ≠ "")
    (hids : (s.messages.map Message.id).Nodup)
    (hfresh : ∀ m ∈ s.messages, m.id ≠ s.nextId) :
    filterp (fun m => m.channel = channel)
        ((send_message s username message channel).2).messages
      = takeLast 100 (filterp (fun m => m.channel = channel) s.messages
          ++ [sentMessage s username message channel]) ∧
    (filterp (fun m => m.channel = channel)
        ((send_message s username message channel).2).messages).length ≤ 100 ∧
    (∀ c, c ≠ channel →
      filterp (fun m => m.channel = c)
          ((send_message s username message channel).2).messages
        = filterp (fun m => m.channel = c) s.messages) := by
  have hndL : ((s.messages ++ [sentMessage s username message channel]).map
      Message.id).Nodup := by
    rw [List.map_append, List.nodup_append]
    refine ⟨hids, by simp, ?_⟩
    intro x hx hx2
    simp only [List.map_cons, List.map_nil, List.mem_singleton] at hx2
    obtain ⟨m, hm1, hm2⟩ := List.mem_map.mp hx
    exact hfresh m hm1 (hm2.trans hx2)
  set L1 : State := { s with
    messages := s.messages ++ [sentMessage s username message channel],
    clock := s.clock + 1, nextId := s.nextId + 1 } with hL1
  have hpost : ((send_message s username message channel).2).messages
      = (cap_stage channel L1).messages := by
    simp only [send_message, hut, hmt]
    rw [if_neg (not_or.mpr ⟨hu, hm⟩)]
    rw [fanout_stage_messages]
    rw [hL1]
    rfl
  have hL1m : L1.messages
      = s.messages ++ [sentMessage s username message channel] := by
    rw [hL1]
  obtain ⟨hcap1, hcap2⟩ := cap_stage_messages channel L1 (by rw [hL1m]; exact hndL)
  have hchan : filterp (fun m => m.channel = channel) L1.messages
      = filterp (fun m => m.channel = channel) s.messages
        ++ [sentMessage s username message channel] := by
    rw [hL1m, filterp_append,
      filterp_singleton_pos (p := fun m => m.channel = channel)
        (a := sentMessage s username message channel) rfl]
  refine ⟨?_, ?_, ?_⟩
  · rw [hpost, hcap1, hchan]
  · rw [hpost, hcap1]
    exact length_takeLast _ _
  · intro c hc
    rw [hpost, hcap2 c hc, hL1m, filterp_append,
      filterp_singleton_neg (p := fun m => m.channel = c)
        (a := sentMessage s username message channel) (fun hh => hc hh.symm),
      List.append_nil]

/-- Witness for C3 at a concrete input. -/
theorem send_message_cap_witness :
    (("alice" : String).pystrip = "alice" ∧ ("hello" : String).pystrip = "hello" ∧
      ("alice" : String) ≠ "" ∧ ("hello" : String) ≠ "" ∧
      (emptyState.messages.map Message.id).Nodup ∧
      ∀ m ∈ emptyState.messages, m.id ≠ emptyState.nextId) ∧
    filterp (fun m => m.channel = "general")
        ((send_message emptyState "alice" "hello" "general").2).messages
      = takeLast 100 (filterp (fun m => m.channel = "general") emptyState.messages
          ++ [sentMessage emptyState "alice" "hello" "general"]) ∧
    (filterp (fun m => m.channel = "general")
        ((send_message emptyState "alice" "hello" "general").2).messages).length
      ≤ 100 :=
  ⟨by decide,
    (send_message_cap emptyState "alice" "hello" "general"
      (by decide) (by decide) (by decide) (by decide) (by decide) (by decide)).1,
    (send_message_cap emptyState "alice" "hello" "general"
      (by decide) (by decide) (by decide) (by decide) (by decide) (by decide)).2.1⟩

/-- C8: a successful `send_message` creates one `message` notification
per friend in the friends list of the sender whose settings document exists
and has `message_notifications` enabled, with the body truncated to 100
characters (with a trailing ellipsis when longer); friends with the flag
disabled or with no settings document get none.  The hypothesis that the
sender is not their own friend holds in every reachable store (the
handlers never let a user befriend themselves). -/
theorem send_message_fanout (s : State) (username message channel : String)
    (hut : username.pystrip = username) (hmt : message.pystrip = message)
    (hu : username ≠ "") (hm : message ≠ "")
    (hself : username ∉ friendsOf s username) :
    ((send_message s username message channel).2).notifsCol.map notifView
      = s.notifsCol.map notifView
        ++ fanoutView s.settingsCol username message (friendsOf s username) := by
  set L1 : State := { s with
    messages := s.messages ++ [sentMessage s username message channel],
    clock := s.clock + 1, nextId := s.nextId + 1 } with hL1
  set S3 : State := { cap_stage channel L1 with
    events := (cap_stage channel L1).events
      ++ [SEvent.new_message channel (sentMessage s username message channel)] }
    with hS3
  have hpost : (send_message s username message channel).2
      = fanout_stage username message channel S3 := by
    rw [hS3, hL1]
    simp only [send_message, hut, hmt]
    rw [if_neg (not_or.mpr ⟨hu, hm⟩)]
    rfl
  have hfc : S3.friendsCol = s.friendsCol := by
    rw [hS3]
    exact ((cap_stage_other channel L1).2.2.1).trans (by rw [hL1])
  have hsc : S3.settingsCol = s.settingsCol := by
    rw [hS3]
    exact ((cap_stage_other channel L1).2.1).trans (by rw [hL1])
  have hnc : S3.notifsCol = s.notifsCol := by
    rw [hS3]
    exact ((cap_stage_other channel L1).1).trans (by rw [hL1])
  rw [hpost, fanout_stage_notifs username message channel S3
      (by rw [hfc]; exact hself), hfc, hsc, hnc]
  rfl

/-- A concrete store for the C8 witness: alice has three friends, with
enabled, disabled and missing settings documents respectively. -/
def wsFan : State :=
  { emptyState with
    friendsCol := [⟨"alice", ["bob", "carol", "dave"], [], []⟩],
    settingsCol :=
      [⟨"bob", "dark", "k", "u", some true, some true, some true, some true⟩,
       ⟨"carol", "dark", "k", "u", some true, some false, some true, some true⟩] }

/-- Witness for C8 at a concrete input. -/
theorem send_message_fanout_witness :
    (("alice" : String).pystrip = "alice" ∧ ("hi" : String).pystrip = "hi" ∧
      ("alice" : String) ≠ "" ∧ ("hi" : String) ≠ "" ∧
      ("alice" : String) ∉ friendsOf wsFan "alice") ∧
    ((send_message wsFan "alice" "hi" "general").2).notifsCol.map notifView
      = wsFan.notifsCol.map notifView
        ++ fanoutView wsFan.settingsCol "alice" "hi" (friendsOf wsFan "alice") :=
  ⟨by decide,
    send_message_fanout wsFan "alice" "hi" "general"
      (by decide) (by decide) (by decide) (by decide) (by decide)⟩
